import Mathlib

set_option autoImplicit false

namespace KernelWorx

/-!
Shallow embedding of the kernelworx backend core: the owner/share
authorization model (src/src/utils/auth.py), the profile ownership
transfer handler (src/src/handlers/transfer_profile_ownership.py), the
admin cascade deletions (src/src/handlers/admin_operations.py) and the
self-service account deletion (src/src/handlers/account_operations.py).

The DynamoDB tables and the Cognito user pool are modelled as explicit
state (`Store`), threaded through every operation, so that a Python
exception that unwinds after some writes leaves those writes in place,
exactly as in the real system.  Dynamically typed Python values coming
out of JSON events and DynamoDB items are modelled by `PyVal`.
-/

/-- A deserialized Python/JSON value as it appears in Lambda events and
DynamoDB items: strings, numbers, booleans, None, lists and
string-keyed dicts.  Python sets (as returned by boto3 for DynamoDB
string sets) are modelled as `vlist` as well; no modelled code path
distinguishes a set from a list. -/
inductive PyVal where
  | vstr (s : String)
  | vnum (n : Int)
  | vbool (b : Bool)
  | vnone
  | vlist (items : List PyVal)
  | vdict (entries : List (String × PyVal))

/-- Python exceptions raised by the modelled code paths. -/
inductive PyExn where
  | attributeError
  | typeError
  | keyError
  | valueError (msg : String)
  | permissionError (msg : String)
  | clientError (code : String)
deriving DecidableEq

/-- Modelled from the spec: utils/errors.py is not under src/.  Section 7
of the spec lists the error taxonomy as six distinct kinds
(Unauthorized, Forbidden, InvalidInput, NotFound, Conflict,
InternalError); the handlers under src/ name the members
ErrorCode.FORBIDDEN, ErrorCode.INVALID_INPUT, ErrorCode.NOT_FOUND and
ErrorCode.INTERNAL_ERROR explicitly. -/
inductive ErrorCode where
  | unauthorized
  | forbidden
  | invalidInput
  | notFound
  | conflict
  | internalError
deriving DecidableEq

/-- An exception escaping a handler: either an AppError (utils/errors.py)
with its ErrorCode and message, or a plain Python exception. -/
inductive Exn where
  | app (code : ErrorCode) (msg : String)
  | py (e : PyExn)
deriving DecidableEq

/-- Python `str(x)`.  Exact for strings, ints, booleans and None; for
containers the repr text is elided to a placeholder because no modelled
code path inspects the rendered text of a container (the only uses of
`str` in the modelled handlers are on ids that are strings, or on a
missing `sub`, which is None). -/
def pyStr : PyVal → String
  | .vstr s => s
  | .vnum n => toString n
  | .vbool true => "True"
  | .vbool false => "False"
  | .vnone => "None"
  | .vlist _ => "[container]"
  | .vdict _ => "[container]"

/-- Python `str.upper()`, character-wise (the permission values and ids
this is applied to are ASCII). -/
def py_upper (s : String) : String :=
  ⟨s.data.map Char.toUpper⟩

/-- Python `str.strip()`: drop leading and trailing whitespace. -/
def py_strip (s : String) : String :=
  ⟨((s.data.dropWhile Char.isWhitespace).reverse.dropWhile Char.isWhitespace).reverse⟩

/-- Python `v.get(key, default)` where the receiver `v` may be any value:
on a dict it looks the key up, on anything else Python raises
AttributeError (no `.get` attribute). -/
def pyGet (v : PyVal) (key : String) (dflt : PyVal) : Except PyExn PyVal :=
  match v with
  | .vdict d => .ok ((d.lookup key).getD dflt)
  | _ => .error .attributeError

/-- Python `v[key]` where the receiver `v` may be any value: KeyError on
a dict missing the key, TypeError on a non-dict receiver. -/
def pyIndex (v : PyVal) (key : String) : Except PyExn PyVal :=
  match v with
  | .vdict d =>
    match d.lookup key with
    | some x => .ok x
    | none => .error .keyError
  | _ => .error .typeError

/-- Look a key up in an event dict (the top-level Lambda `event` is
always a dict, modelled directly as its entry list); Python `event[key]`
raises KeyError when absent. -/
def pyIndexList (d : List (String × PyVal)) (key : String) : Except PyExn PyVal :=
  match d.lookup key with
  | some x => .ok x
  | none => .error .keyError

/-- A value used where the source assumes a str (ids read out of the
event).  A non-string here would flow on in Python and fail later at the
first str-only operation; the model raises the type error at extraction
instead.  No claim exercises a non-string id. -/
def pyAsString (v : PyVal) : Except PyExn String :=
  match v with
  | .vstr s => .ok s
  | _ => .error .typeError

/-- Python equality `"ADMIN" == x` element test used by list membership:
true exactly on the string "ADMIN" (a non-string value never equals a
str in Python). -/
def listHasAdmin : List PyVal → Bool
  | [] => false
  | .vstr s :: rest => s == "ADMIN" || listHasAdmin rest
  | _ :: rest => listHasAdmin rest

/-- Substring test backing Python `needle in haystack` on strings. -/
def strContainsSub (needle hay : String) : Bool :=
  hay.data.tails.any fun t => needle.data.isPrefixOf t

/-- Python membership test `"ADMIN" in groups` for the value shapes a
`cognito:groups` claim can take: on a list it compares elements with
`==`, on a string it is a substring test, on a dict it tests key
membership, and on a number, boolean or None it raises TypeError. -/
def containsAdmin : PyVal → Except PyExn Bool
  | .vlist l => .ok (listHasAdmin l)
  | .vstr s => .ok (strContainsSub "ADMIN" s)
  | .vdict d => .ok (d.any fun e => e.1 == "ADMIN")
  | _ => .error .typeError

/-- Body of `is_admin` (src/src/utils/auth.py lines 224-230): the code
inside the try block.  `event.get("identity", {})` never raises because
`event` itself is a dict; the later `.get` calls and the membership test
may raise. -/
def is_admin_body (event : List (String × PyVal)) : Except PyExn Bool :=
  let identity := (event.lookup "identity").getD (.vdict [])
  match pyGet identity "claims" (.vdict []) with
  | .error e => .error e
  | .ok claims =>
    match pyGet claims "cognito:groups" (.vlist []) with
    | .error e => .error e
    | .ok groups =>
      containsAdmin (match groups with
        | .vstr s => PyVal.vlist [.vstr s]
        | g => g)

/-- `is_admin` (src/src/utils/auth.py lines 210-232): the try/except
returns False on any exception. -/
def is_admin (event : List (String × PyVal)) : Bool :=
  match is_admin_body event with
  | .ok b => b
  | .error _ => false

/-- A Profile item: composite key (ownerAccountId, profileId) plus its
remaining attributes, which the transfer carries over unchanged. -/
structure ProfileItem where
  ownerAccountId : String
  profileId : String
  attrs : List (String × String)
deriving DecidableEq

/-- A Share item: composite key (profileId, targetAccountId); the
permissions attribute may be absent. -/
structure ShareItem where
  profileId : String
  targetAccountId : String
  permissions : Option PyVal

/-- A Campaign item: composite key (profileId, campaignId). -/
structure CampaignItem where
  profileId : String
  campaignId : String
deriving DecidableEq

/-- An Order item: composite key (campaignId, orderId). -/
structure OrderItem where
  campaignId : String
  orderId : String
deriving DecidableEq

/-- A Catalog item: key catalogId, with owner and the soft-delete flag
(absent, false or true). -/
structure CatalogItem where
  catalogId : String
  ownerAccountId : String
  isDeleted : Option Bool
deriving DecidableEq

/-- An Account item: key accountId (stored with the ACCOUNT# prefix). -/
structure AccountItem where
  accountId : String
deriving DecidableEq

/-- A Cognito user pool entry: unique username, unique sub. -/
structure CognitoUser where
  username : String
  sub : String
deriving DecidableEq

/-- The document store plus the identity provider, as one explicit
state.  Tables are lists of items; composite keys are unique in the
real store (theorems that need that state it as a Nodup hypothesis). -/
structure Store where
  profiles : List ProfileItem
  shares : List ShareItem
  campaigns : List CampaignItem
  orders : List OrderItem
  catalogs : List CatalogItem
  accounts : List AccountItem
  cognitoUsers : List CognitoUser

/-- Collaborator behaviour injected into a run: the page size at which
the store truncates query and scan results, and the calls that fail.
Fault lists name the composite keys whose delete_item raises a
ClientError; the Cognito fault fields carry the error code the provider
raises on admin_delete_user, if any. -/
structure Config where
  pageSize : Nat
  campaignDeleteFaults : List (String × String)
  orderDeleteFaults : List (String × String)
  shareDeleteFaults : List (String × String)
  userPoolConfigured : Bool
  cognitoSelfDeleteFault : Option String
  cognitoAdminDeleteFault : Option String
deriving DecidableEq

/-! ## src/src/utils/auth.py -/

/-- `_normalize_profile_id` (auth.py lines 45-47). -/
def normalize_profile_id (profile_id : String) : String :=
  if "PROFILE#".isPrefixOf profile_id then profile_id else "PROFILE#" ++ profile_id

/-- `_normalize_account_id` (auth.py lines 50-52). -/
def normalize_account_id (account_id : String) : String :=
  if "ACCOUNT#".isPrefixOf account_id then account_id else "ACCOUNT#" ++ account_id

/-- `_is_profile_owner` (auth.py lines 55-60): direct get_item on the
profiles table at key (ACCOUNT#caller, db_profile_id). -/
def is_profile_owner (st : Store) (caller_account_id db_profile_id : String) : Bool :=
  st.profiles.any fun p =>
    p.ownerAccountId == "ACCOUNT#" ++ caller_account_id && p.profileId == db_profile_id

/-- `_profile_exists` (auth.py lines 63-71): query of the profileId-index
GSI with Limit 1; nonempty iff some item carries that profileId. -/
def profile_exists (st : Store) (db_profile_id : String) : Bool :=
  st.profiles.any fun p => p.profileId == db_profile_id

/-- The loop body of `_normalize_permissions` (auth.py lines 78-84): a
plain string is upper-cased; a dict with key S has its S value
upper-cased, raising AttributeError when that value is not a string
(Python `perm["S"].upper()`); every other entry is skipped. -/
def normalize_perm_entries : List PyVal → Except PyExn (List String)
  | [] => .ok []
  | p :: rest =>
    match p with
    | .vstr s => do
      let r ← normalize_perm_entries rest
      .ok (py_upper s :: r)
    | .vdict d =>
      match d.lookup "S" with
      | some (.vstr s) => do
        let r ← normalize_perm_entries rest
        .ok (py_upper s :: r)
      | some _ => .error .attributeError
      | none => normalize_perm_entries rest
    | _ => normalize_perm_entries rest

/-- `_normalize_permissions` (auth.py lines 74-84): a non-list, non-set
value normalizes to the empty list. -/
def normalize_permissions (permissions : PyVal) : Except PyExn (List String) :=
  match permissions with
  | .vlist l => normalize_perm_entries l
  | _ => .ok []

/-- get_item on the shares table at key (profileId, targetAccountId). -/
def get_share (st : Store) (db_profile_id db_caller_id : String) : Option ShareItem :=
  st.shares.find? fun s => s.profileId == db_profile_id && s.targetAccountId == db_caller_id

/-- `_check_share_permissions` (auth.py lines 87-100). -/
def check_share_permissions (st : Store) (db_profile_id db_caller_id required_permission : String) :
    Except Exn Bool :=
  match get_share st db_profile_id db_caller_id with
  | none => .ok false
  | some share =>
    match normalize_permissions (share.permissions.getD (.vlist [])) with
    | .error e => .error (.py e)
    | .ok permissions =>
      if required_permission == "READ" && (permissions.contains "READ" || permissions.contains "WRITE") then
        .ok true
      else if required_permission == "WRITE" && permissions.contains "WRITE" then
        .ok true
      else
        .ok false

/-- `check_profile_access` (auth.py lines 103-132): owner lookup first,
then existence via the id-only index (NotFound when absent), then the
share lookup. -/
def check_profile_access (st : Store) (caller_account_id profile_id required_permission : String) :
    Except Exn Bool :=
  let required_permission := py_upper required_permission
  let db_profile_id := normalize_profile_id profile_id
  if is_profile_owner st caller_account_id db_profile_id then
    .ok true
  else if !profile_exists st db_profile_id then
    .error (.app .notFound ("Profile " ++ profile_id ++ " not found"))
  else
    check_share_permissions st db_profile_id (normalize_account_id caller_account_id)
      required_permission

/-! ## src/src/handlers/transfer_profile_ownership.py -/

/-- Modelled from the spec: utils/ids.py is not under src/.  Section 4.1
describes `normalize(id, kind)` as idempotently ensuring the namespace
prefix; the call sites `ensure_profile_id(x) or ""` show the function
returns a false-y value (None) for empty input. -/
def ensure_profile_id (s : String) : Option String :=
  if s = "" then none else some (normalize_profile_id s)

/-- Modelled from the spec: utils/ids.py is not under src/.  Account-id
counterpart of `ensure_profile_id`. -/
def ensure_account_id (s : String) : Option String :=
  if s = "" then none else some (normalize_account_id s)

/-- The AppSync event for transferProfileOwnership, with the caller sub,
the admin groups claim and the two input ids in their places. -/
def mkTransferEvent (sub : String) (groups : PyVal) (profile_id new_owner : String) :
    List (String × PyVal) :=
  [("identity", .vdict [("sub", .vstr sub), ("claims", .vdict [("cognito:groups", groups)])]),
   ("arguments", .vdict [("input", .vdict [("profileId", .vstr profile_id),
      ("newOwnerAccountId", .vstr new_owner)])])]

/-- The three reads at the top of `lambda_handler`
(transfer_profile_ownership.py lines 72-74): dict indexing raises
KeyError when a key is absent. -/
def extract_transfer_args (event : List (String × PyVal)) :
    Except PyExn (String × String × String) :=
  match pyIndexList event "identity" with
  | .error e => .error e
  | .ok identity =>
    match pyIndex identity "sub" with
    | .error e => .error e
    | .ok sub =>
      match pyIndexList event "arguments" with
      | .error e => .error e
      | .ok args =>
        match pyIndex args "input" with
        | .error e => .error e
        | .ok input =>
          match pyIndex input "profileId", pyIndex input "newOwnerAccountId" with
          | .error e, _ => .error e
          | _, .error e => .error e
          | .ok pid, .ok nid =>
            match pyAsString sub, pyAsString pid, pyAsString nid with
            | .error e, _, _ => .error e
            | _, .error e, _ => .error e
            | _, _, .error e => .error e
            | .ok s, .ok p, .ok n => .ok (s, p, n)

/-- `_get_and_verify_profile` (transfer_profile_ownership.py lines
26-43): query the profileId-index, take Items[0], then check owner or
admin. -/
def get_and_verify_profile (st : Store) (db_profile_id db_caller_id : String)
    (event : List (String × PyVal)) : Except PyExn ProfileItem :=
  match st.profiles.filter (fun p => p.profileId == db_profile_id) with
  | [] => .error (.valueError ("Profile not found: " ++ db_profile_id))
  | profile :: _ =>
    let caller_is_owner := profile.ownerAccountId == db_caller_id
    let caller_is_admin := is_admin event
    if !caller_is_owner && !caller_is_admin then
      .error (.permissionError "Only the profile owner or an admin can transfer ownership")
    else
      .ok profile

/-- `_verify_new_owner_has_share` (lines 46-51): skipped entirely for
admin callers. -/
def verify_new_owner_has_share (st : Store) (db_profile_id db_new_owner_id : String)
    (caller_is_admin : Bool) : Except PyExn Unit :=
  if !caller_is_admin then
    match get_share st db_profile_id db_new_owner_id with
    | none => .error (.valueError "New owner must have existing access to the profile")
    | some _ => .ok ()
  else
    .ok ()

/-- `_transfer_ownership` (lines 54-59): delete the item under the old
composite key, mutate ownerAccountId in memory, put_item under the new
key (put_item replaces any existing item with the same key). -/
def transfer_ownership (st : Store) (profile : ProfileItem) (db_profile_id db_new_owner_id : String) :
    Store × ProfileItem :=
  let after_delete := st.profiles.filter fun p =>
    !(p.ownerAccountId == profile.ownerAccountId && p.profileId == db_profile_id)
  let profile2 := { profile with ownerAccountId := db_new_owner_id }
  let after_put := (after_delete.filter fun p =>
    !(p.ownerAccountId == profile2.ownerAccountId && p.profileId == profile2.profileId)) ++ [profile2]
  ({ st with profiles := after_put }, profile2)

/-- `_delete_share_if_exists` (lines 62-67): the delete_item is wrapped
in a bare try/except, so a ClientError from the store (injected through
`Config.shareDeleteFaults`) is swallowed and the state it would have
changed stays as it was. -/
def delete_share_if_exists (cfg : Config) (st : Store) (db_profile_id db_new_owner_id : String) :
    Store :=
  if cfg.shareDeleteFaults.contains (db_profile_id, db_new_owner_id) then
    st
  else
    { st with shares := st.shares.filter fun s =>
        !(s.profileId == db_profile_id && s.targetAccountId == db_new_owner_id) }

/-- `lambda_handler` (transfer_profile_ownership.py lines 70-86). -/
def transfer_lambda_handler (cfg : Config) (event : List (String × PyVal)) (st : Store) :
    Store × Except Exn ProfileItem :=
  match extract_transfer_args event with
  | .error e => (st, .error (.py e))
  | .ok (caller_account_id, profile_id, new_owner_account_id) =>
    let db_profile_id := (ensure_profile_id profile_id).getD ""
    let db_new_owner_id := (ensure_account_id new_owner_account_id).getD ""
    let db_caller_id := (ensure_account_id caller_account_id).getD ""
    match get_and_verify_profile st db_profile_id db_caller_id event with
    | .error e => (st, .error (.py e))
    | .ok profile =>
      let caller_is_admin := is_admin event
      match verify_new_owner_has_share st db_profile_id db_new_owner_id caller_is_admin with
      | .error e => (st, .error (.py e))
      | .ok _ =>
        let sp := transfer_ownership st profile db_profile_id db_new_owner_id
        let st2 := delete_share_if_exists cfg sp.1 db_profile_id db_new_owner_id
        (st2, .ok sp.2)

/-- find?-style lookup of a profile by its composite key. -/
def get_profile_item (st : Store) (owner pid : String) : Option ProfileItem :=
  st.profiles.find? fun p => p.ownerAccountId == owner && p.profileId == pid

/-! ## src/src/handlers/admin_operations.py

Every `tables.X.query(...)` call in the cascade functions is issued once
and its `LastEvaluatedKey` is ignored, so the model returns only the
first page: the matching items truncated at `Config.pageSize`, the point
at which the store chooses to paginate.  Only `_scan_and_delete_catalogs`
loops on the continuation token. -/

/-- An AppSync admin event with the caller sub, an ADMIN groups claim
and the target accountId argument. -/
def mkAdminEvent (sub accountId : String) : List (String × PyVal) :=
  [("identity", .vdict [("sub", .vstr sub),
      ("claims", .vdict [("cognito:groups", .vlist [.vstr "ADMIN"])])]),
   ("arguments", .vdict [("accountId", .vstr accountId)])]

/-- `_validate_admin_and_get_account_id` (admin_operations.py lines
256-267): Forbidden for non-admin callers, InvalidInput for a blank
accountId argument.  A malformed arguments value makes the
`.get` raise, surfacing as a Python exception. -/
def validate_admin_and_get_account_id (event : List (String × PyVal)) : Except Exn String :=
  if !is_admin event then
    .error (.app .forbidden "Admin access required")
  else
    match pyGet ((event.lookup "arguments").getD (.vdict [])) "accountId" (.vstr "") with
    | .error e => .error (.py e)
    | .ok v =>
      let account_id := py_strip (pyStr v)
      if account_id == "" then
        .error (.app .invalidInput "Account ID is required")
      else
        .ok account_id

/-- Each admin handler wraps its body in try/except: an AppError
re-raises unchanged, any other exception is logged and re-raised as
AppError(INTERNAL_ERROR, msg). -/
def wrap_admin_errors (msg : String) : Except Exn Nat → Except Exn Nat
  | .ok n => .ok n
  | .error (.app c m) => .error (.app c m)
  | .error (.py _) => .error (.app .internalError msg)

/-- First page of the profiles owned by an account
(`_get_user_profiles`, admin_operations.py lines 1072-1078, and the
inline queries at lines 849-852, 891-894, 933-936). -/
def query_profiles_by_owner (cfg : Config) (st : Store) (db_account_id : String) :
    List ProfileItem :=
  (st.profiles.filter fun p => p.ownerAccountId == db_account_id).take cfg.pageSize

/-- First page of the campaigns of a profile (lines 816-819, 858-861). -/
def query_campaigns_by_profile (cfg : Config) (st : Store) (pid : String) : List CampaignItem :=
  (st.campaigns.filter fun c => c.profileId == pid).take cfg.pageSize

/-- First page of the orders of a campaign (lines 784-787). -/
def query_orders_by_campaign (cfg : Config) (st : Store) (cid : String) : List OrderItem :=
  (st.orders.filter fun o => o.campaignId == cid).take cfg.pageSize

/-- First page of the shares of a profile (lines 900-903). -/
def query_shares_by_profile (cfg : Config) (st : Store) (pid : String) : List ShareItem :=
  (st.shares.filter fun s => s.profileId == pid).take cfg.pageSize

/-- delete_item on the orders table; faulted keys raise ClientError. -/
def delete_order_item (cfg : Config) (st : Store) (cid oid : String) : Except PyExn Store :=
  if cfg.orderDeleteFaults.contains (cid, oid) then
    .error (.clientError "InternalServerError")
  else
    .ok { st with orders := st.orders.filter fun o =>
      !(o.campaignId == cid && o.orderId == oid) }

/-- delete_item on the campaigns table; faulted keys raise ClientError. -/
def delete_campaign_item (cfg : Config) (st : Store) (pid cid : String) : Except PyExn Store :=
  if cfg.campaignDeleteFaults.contains (pid, cid) then
    .error (.clientError "InternalServerError")
  else
    .ok { st with campaigns := st.campaigns.filter fun c =>
      !(c.profileId == pid && c.campaignId == cid) }

/-- delete_item on the shares table; faulted keys raise ClientError. -/
def delete_share_item (cfg : Config) (st : Store) (pid target : String) : Except PyExn Store :=
  if cfg.shareDeleteFaults.contains (pid, target) then
    .error (.clientError "InternalServerError")
  else
    .ok { st with shares := st.shares.filter fun s =>
      !(s.profileId == pid && s.targetAccountId == target) }

/-- The per-order delete loop of `_delete_orders_for_campaign` (lines
789-793): no per-item except, so the first failing delete aborts the
loop with the writes so far kept. -/
def delete_orders_loop (cfg : Config) (cid : String) :
    List OrderItem → Store → Nat → Store × Except PyExn Nat
  | [], st, count => (st, .ok count)
  | o :: rest, st, count =>
    match delete_order_item cfg st cid o.orderId with
    | .error e => (st, .error e)
    | .ok st2 => delete_orders_loop cfg cid rest st2 (count + 1)

/-- `_delete_orders_for_campaign` (admin_operations.py lines 782-793). -/
def delete_orders_for_campaign (cfg : Config) (st : Store) (cid : String) :
    Store × Except PyExn Nat :=
  delete_orders_loop cfg cid (query_orders_by_campaign cfg st cid) st 0

/-- The campaign loop of `admin_delete_user_orders` (lines 821-823). -/
def orders_campaign_loop (cfg : Config) :
    List CampaignItem → Store → Nat → Store × Except PyExn Nat
  | [], st, count => (st, .ok count)
  | c :: rest, st, count =>
    match delete_orders_for_campaign cfg st c.campaignId with
    | (st2, .error e) => (st2, .error e)
    | (st2, .ok n) => orders_campaign_loop cfg rest st2 (count + n)

/-- The profile loop of `admin_delete_user_orders` (lines 812-823). -/
def orders_profile_loop (cfg : Config) :
    List ProfileItem → Store → Nat → Store × Except PyExn Nat
  | [], st, count => (st, .ok count)
  | p :: rest, st, count =>
    match orders_campaign_loop cfg (query_campaigns_by_profile cfg st p.profileId) st count with
    | (st2, .error e) => (st2, .error e)
    | (st2, .ok count2) => orders_profile_loop cfg rest st2 count2

/-- `admin_delete_user_orders` (admin_operations.py lines 796-832). -/
def admin_delete_user_orders (cfg : Config) (event : List (String × PyVal)) (st : Store) :
    Store × Except Exn Nat :=
  match validate_admin_and_get_account_id event with
  | .error e => (st, wrap_admin_errors "Failed to delete user orders" (.error e))
  | .ok account_id =>
    let db_account_id := normalize_account_id account_id
    let profiles := query_profiles_by_owner cfg st db_account_id
    match orders_profile_loop cfg profiles st 0 with
    | (st2, .ok n) => (st2, .ok n)
    | (st2, .error e) =>
      (st2, wrap_admin_errors "Failed to delete user orders" (.error (.py e)))

/-- The per-campaign delete loop of `admin_delete_user_campaigns` (lines
863-865). -/
def campaigns_delete_loop (cfg : Config) (pid : String) :
    List CampaignItem → Store → Nat → Store × Except PyExn Nat
  | [], st, count => (st, .ok count)
  | c :: rest, st, count =>
    match delete_campaign_item cfg st pid c.campaignId with
    | .error e => (st, .error e)
    | .ok st2 => campaigns_delete_loop cfg pid rest st2 (count + 1)

/-- The profile loop of `admin_delete_user_campaigns` (lines 854-865). -/
def campaigns_profile_loop (cfg : Config) :
    List ProfileItem → Store → Nat → Store × Except PyExn Nat
  | [], st, count => (st, .ok count)
  | p :: rest, st, count =>
    match campaigns_delete_loop cfg p.profileId
        (query_campaigns_by_profile cfg st p.profileId) st count with
    | (st2, .error e) => (st2, .error e)
    | (st2, .ok count2) => campaigns_profile_loop cfg rest st2 count2

/-- `admin_delete_user_campaigns` (admin_operations.py lines 835-874). -/
def admin_delete_user_campaigns (cfg : Config) (event : List (String × PyVal)) (st : Store) :
    Store × Except Exn Nat :=
  match validate_admin_and_get_account_id event with
  | .error e => (st, wrap_admin_errors "Failed to delete user campaigns" (.error e))
  | .ok account_id =>
    let db_account_id := normalize_account_id account_id
    let profiles := query_profiles_by_owner cfg st db_account_id
    match campaigns_profile_loop cfg profiles st 0 with
    | (st2, .ok n) => (st2, .ok n)
    | (st2, .error e) =>
      (st2, wrap_admin_errors "Failed to delete user campaigns" (.error (.py e)))

/-- The per-share delete loop of `admin_delete_user_shares` (lines
905-907). -/
def shares_delete_loop (cfg : Config) (pid : String) :
    List ShareItem → Store → Nat → Store × Except PyExn Nat
  | [], st, count => (st, .ok count)
  | s :: rest, st, count =>
    match delete_share_item cfg st pid s.targetAccountId with
    | .error e => (st, .error e)
    | .ok st2 => shares_delete_loop cfg pid rest st2 (count + 1)

/-- The profile loop of `admin_delete_user_shares` (lines 896-907). -/
def shares_profile_loop (cfg : Config) :
    List ProfileItem → Store → Nat → Store × Except PyExn Nat
  | [], st, count => (st, .ok count)
  | p :: rest, st, count =>
    match shares_delete_loop cfg p.profileId (query_shares_by_profile cfg st p.profileId) st count with
    | (st2, .error e) => (st2, .error e)
    | (st2, .ok count2) => shares_profile_loop cfg rest st2 count2

/-- `admin_delete_user_shares` (admin_operations.py lines 877-916). -/
def admin_delete_user_shares (cfg : Config) (event : List (String × PyVal)) (st : Store) :
    Store × Except Exn Nat :=
  match validate_admin_and_get_account_id event with
  | .error e => (st, wrap_admin_errors "Failed to delete user shares" (.error e))
  | .ok account_id =>
    let db_account_id := normalize_account_id account_id
    let profiles := query_profiles_by_owner cfg st db_account_id
    match shares_profile_loop cfg profiles st 0 with
    | (st2, .ok n) => (st2, .ok n)
    | (st2, .error e) =>
      (st2, wrap_admin_errors "Failed to delete user shares" (.error (.py e)))

/-- The profile delete loop of `admin_delete_user_profiles` (lines
938-940); profile deletes are not fault-injected, so the loop is total. -/
def profiles_delete_loop (db_account_id : String) :
    List ProfileItem → Store → Nat → Store × Nat
  | [], st, count => (st, count)
  | p :: rest, st, count =>
    let st2 := { st with profiles := st.profiles.filter fun q =>
      !(q.ownerAccountId == db_account_id && q.profileId == p.profileId) }
    profiles_delete_loop db_account_id rest st2 (count + 1)

/-- `admin_delete_user_profiles` (admin_operations.py lines 919-949). -/
def admin_delete_user_profiles (cfg : Config) (event : List (String × PyVal)) (st : Store) :
    Store × Except Exn Nat :=
  match validate_admin_and_get_account_id event with
  | .error e => (st, wrap_admin_errors "Failed to delete user profiles" (.error e))
  | .ok account_id =>
    let db_account_id := normalize_account_id account_id
    let profiles := query_profiles_by_owner cfg st db_account_id
    let sn := profiles_delete_loop db_account_id profiles st 0
    (sn.1, .ok sn.2)

/-- The scan filter of `_scan_and_delete_catalogs` (lines 964-967):
ownerAccountId matches and isDeleted is absent or false. -/
def catalog_matches (owner : String) (c : CatalogItem) : Bool :=
  c.ownerAccountId == owner && (c.isDeleted == none || c.isDeleted == some false)

/-- `_soft_delete_catalog` (admin_operations.py lines 952-958):
update_item keyed by catalogId setting isDeleted = true. -/
def soft_delete_catalog (st : Store) (cid : String) : Store :=
  { st with catalogs := st.catalogs.map fun c =>
      if c.catalogId == cid then { c with isDeleted := some true } else c }

/-- The paginated scan loop of `_scan_and_delete_catalogs` (lines
969-980).  A scan reads `pageSize` raw items from the current position,
filters them, and reports a LastEvaluatedKey exactly when raw items
remain beyond the page; the loop re-scans from that position until no
token is returned.  The fuel argument only bounds the recursion for
Lean: with a positive page size the loop always breaks before
`st.catalogs.length + 1` iterations (proved below), so the model with
that fuel agrees with the unbounded Python loop. -/
def scan_catalogs_loop (cfg : Config) (owner : String) :
    Nat → Nat → Store → Nat → Store × Nat
  | 0, _, st, count => (st, count)
  | fuel + 1, start, st, count =>
    let raw := st.catalogs
    let page := (raw.drop start).take cfg.pageSize
    let matched := page.filter (catalog_matches owner)
    let st2 := matched.foldl (fun s c => soft_delete_catalog s c.catalogId) st
    let count2 := count + matched.length
    if start + cfg.pageSize < raw.length then
      scan_catalogs_loop cfg owner fuel (start + cfg.pageSize) st2 count2
    else
      (st2, count2)

/-- `_scan_and_delete_catalogs` (admin_operations.py lines 961-982). -/
def scan_and_delete_catalogs (cfg : Config) (st : Store) (owner : String) : Store × Nat :=
  scan_catalogs_loop cfg owner (st.catalogs.length + 1) 0 st 0

/-- `admin_delete_user_catalogs` (admin_operations.py lines 985-1006). -/
def admin_delete_user_catalogs (cfg : Config) (event : List (String × PyVal)) (st : Store) :
    Store × Except Exn Nat :=
  match validate_admin_and_get_account_id event with
  | .error e => (st, wrap_admin_errors "Failed to delete user catalogs" (.error e))
  | .ok account_id =>
    let db_account_id := normalize_account_id account_id
    let sn := scan_and_delete_catalogs cfg st db_account_id
    (sn.1, .ok sn.2)

/-- `_check_not_self_deletion` (admin_operations.py lines 600-603):
raises AppError(INVALID_INPUT) when the target equals the caller. -/
def check_not_self_deletion (caller_id account_id : String) : Except Exn Unit :=
  if account_id == caller_id then
    .error (.app .invalidInput "Cannot delete your own account")
  else
    .ok ()

/-- `_find_cognito_user_by_sub` (admin_operations.py lines 478-494):
list_users filtered by sub with Limit 1. -/
def find_cognito_user_by_sub (st : Store) (account_id : String) : Option CognitoUser :=
  (st.cognitoUsers.filter fun u => u.sub == account_id).head?

/-- delete_item on the accounts table (`_delete_account_from_dynamodb`,
lines 508-515; also account_operations.py line 154). -/
def delete_account_item (st : Store) (db_account_id : String) : Store :=
  { st with accounts := st.accounts.filter fun a => !(a.accountId == db_account_id) }

/-- `admin_delete_user` (admin_operations.py lines 606-649): admin
check, self-deletion guard, Cognito lookup and delete, DynamoDB account
delete. -/
def admin_delete_user (cfg : Config) (event : List (String × PyVal)) (st : Store) :
    Store × Except Exn Bool :=
  match validate_admin_and_get_account_id event with
  | .error (.app c m) => (st, .error (.app c m))
  | .error (.py _) => (st, .error (.app .internalError "Failed to delete user"))
  | .ok account_id =>
    match pyGet ((event.lookup "identity").getD (.vdict [])) "sub" .vnone with
    | .error _ => (st, .error (.app .internalError "Failed to delete user"))
    | .ok subv =>
      let caller_id := pyStr subv
      match check_not_self_deletion caller_id account_id with
      | .error e => (st, .error e)
      | .ok _ =>
        if !cfg.userPoolConfigured then
          (st, .error (.app .internalError
            "Missing required environment variable: USER_POOL_ID"))
        else
          match find_cognito_user_by_sub st account_id with
          | none => (st, .error (.app .notFound
              ("User \x27" ++ account_id ++ "\x27 not found in Cognito")))
          | some u =>
            match cfg.cognitoAdminDeleteFault with
            | some _ => (st, .error (.app .internalError "Failed to delete user from Cognito"))
            | none =>
              let st1 := { st with cognitoUsers := st.cognitoUsers.filter fun v =>
                !(v.username == u.username) }
              let st2 := delete_account_item st1 ("ACCOUNT#" ++ account_id)
              (st2, .ok true)

/-! ## src/src/handlers/account_operations.py -/

/-- The pseudo event `_delete_all_user_data` builds (account_operations.py
lines 142-145) to call the admin delete functions on behalf of the
caller. -/
def mk_pseudo_event (account_id : String) : List (String × PyVal) :=
  [("identity", .vdict [("sub", .vstr account_id),
      ("claims", .vdict [("cognito:groups", .vlist [.vstr "ADMIN"])])]),
   ("arguments", .vdict [("accountId", .vstr account_id)])]

/-- An AppSync event for deleteMyAccount: only identity.sub is read. -/
def mk_self_event (sub : String) : List (String × PyVal) :=
  [("identity", .vdict [("sub", .vstr sub)])]

/-- `_delete_all_user_data` (account_operations.py lines 132-155): the
five cascade deletions in order, then the account item itself.  An
AppError raised by any of them unwinds as an exception, keeping the
writes made so far. -/
def delete_all_user_data (cfg : Config) (account_id : String) (st : Store) :
    Store × Except Exn Unit :=
  let ev := mk_pseudo_event account_id
  match admin_delete_user_orders cfg ev st with
  | (st1, .error e) => (st1, .error e)
  | (st1, .ok _) =>
    match admin_delete_user_campaigns cfg ev st1 with
    | (st2, .error e) => (st2, .error e)
    | (st2, .ok _) =>
      match admin_delete_user_shares cfg ev st2 with
      | (st3, .error e) => (st3, .error e)
      | (st3, .ok _) =>
        match admin_delete_user_profiles cfg ev st3 with
        | (st4, .error e) => (st4, .error e)
        | (st4, .ok _) =>
          match admin_delete_user_catalogs cfg ev st4 with
          | (st5, .error e) => (st5, .error e)
          | (st5, .ok _) =>
            (delete_account_item st5 ("ACCOUNT#" ++ account_id), .ok ())

/-- `_delete_user_from_cognito` (account_operations.py lines 158-172):
list_users filtered by sub with Limit 1; an absent user only logs a
warning; a ClientError from the provider delete is swallowed when its
code is UserNotFoundException and re-raised otherwise. -/
def delete_user_from_cognito_self (cfg : Config) (st : Store) (account_id : String) :
    Store × Except Exn Unit :=
  match (st.cognitoUsers.filter fun u => u.sub == account_id).head? with
  | none => (st, .ok ())
  | some u =>
    match cfg.cognitoSelfDeleteFault with
    | some code =>
      if code == "UserNotFoundException" then (st, .ok ())
      else (st, .error (.py (.clientError code)))
    | none =>
      ({ st with cognitoUsers := st.cognitoUsers.filter fun v =>
        !(v.username == u.username) }, .ok ())

/-- The except clauses of `delete_my_account` (lines 210-215): a
ClientError maps to one InternalError message, every other exception
(including an AppError from the data cleanup) to the other.  The
`str(e)` detail appended in Python is elided; no claim inspects it. -/
def dma_wrap : Exn → Exn
  | .py (.clientError _) => .app .internalError "Failed to delete account from Cognito"
  | _ => .app .internalError "Failed to delete account"

/-- The read `event["identity"]["sub"]` at account_operations.py line
195, which runs before the try block. -/
def extract_self_sub (event : List (String × PyVal)) : Except PyExn String :=
  match pyIndexList event "identity" with
  | .error e => .error e
  | .ok idv =>
    match pyIndex idv "sub" with
    | .error e => .error e
    | .ok s => pyAsString s

/-- `delete_my_account` (account_operations.py lines 175-215): the
identity read and the USER_POOL_ID check run before the try block. -/
def delete_my_account (cfg : Config) (event : List (String × PyVal)) (st : Store) :
    Store × Except Exn Bool :=
  match extract_self_sub event with
  | .error e => (st, .error (.py e))
  | .ok account_id =>
    if !cfg.userPoolConfigured then
      (st, .error (.app .internalError "USER_POOL_ID not configured"))
    else
      match delete_all_user_data cfg account_id st with
      | (st1, .error e) => (st1, .error (dma_wrap e))
      | (st1, .ok _) =>
        match delete_user_from_cognito_self cfg st1 account_id with
        | (st2, .error e) => (st2, .error (dma_wrap e))
        | (st2, .ok _) => (st2, .ok true)

/-! ## Concrete fixtures used by witnesses and counterexamples -/

/-- The empty store. -/
def st_empty : Store := ⟨[], [], [], [], [], [], []⟩

/-- A fault-free configuration with page size 10. -/
def cfg0 : Config := ⟨10, [], [], [], true, none, none⟩

/-! ## Claims about src/src/utils/auth.py -/

/-- C1: a profile stored with owner account A gives `check_profile_access`
(A, profileId, p) = true for both p = READ and p = WRITE, whatever the
shares table holds (the store `st` carries an arbitrary shares list):
the direct owner lookup is consulted first and a hit grants access
unconditionally. -/
theorem owner_always_has_full_access (st : Store) (a pid : String)
    (h : ∃ p ∈ st.profiles, p.ownerAccountId = "ACCOUNT#" ++ a ∧
      p.profileId = normalize_profile_id pid) :
    check_profile_access st a pid "READ" = .ok true ∧
    check_profile_access st a pid "WRITE" = .ok true := by
  have hown : is_profile_owner st a (normalize_profile_id pid) = true := by
    rcases h with ⟨p, hp, h1, h2⟩
    simp only [is_profile_owner, List.any_eq_true]
    exact ⟨p, hp, by simp [h1, h2]⟩
  constructor <;> simp [check_profile_access, hown]

/-- Witness for C1 at a one-profile store. -/
theorem owner_always_has_full_access_witness :
    check_profile_access ⟨[⟨"ACCOUNT#a1", "PROFILE#p1", []⟩], [], [], [], [], [], []⟩
      "a1" "p1" "READ" = .ok true ∧
    check_profile_access ⟨[⟨"ACCOUNT#a1", "PROFILE#p1", []⟩], [], [], [], [], [], []⟩
      "a1" "p1" "WRITE" = .ok true :=
  owner_always_has_full_access _ "a1" "p1"
    ⟨⟨"ACCOUNT#a1", "PROFILE#p1", []⟩, by simp, by decide, by decide⟩

/-- C3: when no profile with the requested id exists,
`check_profile_access` raises AppError(NOT_FOUND) — for every caller and
every requested permission — rather than returning false. -/
theorem nonexistent_profile_raises_not_found (st : Store) (a pid perm : String)
    (h : ∀ p ∈ st.profiles, p.profileId ≠ normalize_profile_id pid) :
    check_profile_access st a pid perm =
      .error (.app .notFound ("Profile " ++ pid ++ " not found")) := by
  have hown : is_profile_owner st a (normalize_profile_id pid) = false := by
    simp only [is_profile_owner, List.any_eq_false]
    intro p hp
    simp [h p hp]
  have hex : profile_exists st (normalize_profile_id pid) = false := by
    simp only [profile_exists, List.any_eq_false]
    intro p hp
    simp [h p hp]
  simp [check_profile_access, hown, hex]

/-- Witness for C3 at the empty store. -/
theorem nonexistent_profile_raises_not_found_witness :
    check_profile_access st_empty "a1" "p9" "WRITE" =
      .error (.app .notFound ("Profile " ++ "p9" ++ " not found")) :=
  nonexistent_profile_raises_not_found st_empty "a1" "p9" "WRITE" (by simp [st_empty])

/-- C2 counterexample: a Share whose permission set holds a mapping
entry with a non-string value under key S.  The claim says a malformed
permission set yields denial without raising any error, but
`perm["S"].upper()` raises AttributeError on the non-string, which
escapes `check_profile_access`. -/
theorem share_malformed_entry_raises :
    check_profile_access
      ⟨[⟨"ACCOUNT#owner1", "PROFILE#p1", []⟩],
       [⟨"PROFILE#p1", "ACCOUNT#a2", some (.vlist [.vdict [("S", .vnum 5)]])⟩],
       [], [], [], [], []⟩
      "a2" "p1" "READ" = .error (.py .attributeError) := by
  rfl

/-- C2 (amended): for a non-owner caller of an existing profile, an
absent Share denies both permissions without error; with a Share
present, whenever the permission set normalizes without error, READ is
granted iff the normalized set contains READ or WRITE and WRITE iff it
contains WRITE (normalization upper-cases plain strings, unwraps nested
encoded string values and drops other entries) — but a mapping entry
whose S key holds a non-string makes the normalization raise
AttributeError, which propagates instead of denying. -/
theorem share_gate_characterization (st : Store) (caller pid : String)
    (hown : is_profile_owner st caller (normalize_profile_id pid) = false)
    (hex : profile_exists st (normalize_profile_id pid) = true) :
    (get_share st (normalize_profile_id pid) (normalize_account_id caller) = none →
      check_profile_access st caller pid "READ" = .ok false ∧
      check_profile_access st caller pid "WRITE" = .ok false) ∧
    (∀ share, get_share st (normalize_profile_id pid) (normalize_account_id caller) = some share →
      (∀ perms, normalize_permissions (share.permissions.getD (.vlist [])) = .ok perms →
        check_profile_access st caller pid "READ" =
          .ok (perms.contains "READ" || perms.contains "WRITE") ∧
        check_profile_access st caller pid "WRITE" = .ok (perms.contains "WRITE")) ∧
      (∀ e, normalize_permissions (share.permissions.getD (.vlist [])) = .error e →
        check_profile_access st caller pid "READ" = .error (.py e) ∧
        check_profile_access st caller pid "WRITE" = .error (.py e))) := by
  have hr : py_upper "READ" = "READ" := by decide
  have hw : py_upper "WRITE" = "WRITE" := by decide
  refine ⟨fun hnone => ?_, fun share hsome => ⟨fun perms hok => ?_, fun e herr => ?_⟩⟩
  · constructor <;>
      simp [check_profile_access, hown, hex, check_share_permissions, hnone, hr, hw]
  · constructor
    · rcases h1 : perms.contains "READ" || perms.contains "WRITE" with _ | _ <;>
        simp_all [check_profile_access, hown, hex, check_share_permissions, hr]
    · rcases h2 : perms.contains "WRITE" with _ | _ <;>
        simp_all [check_profile_access, hown, hex, check_share_permissions, hw]
  · constructor <;>
      simp [check_profile_access, hown, hex, check_share_permissions, hsome, herr, hr, hw]

/-- Witness for the C2 amended theorem at a two-account store with a
legacy-encoded read-only share. -/
theorem share_gate_characterization_witness :
    check_profile_access
      ⟨[⟨"ACCOUNT#owner1", "PROFILE#p1", []⟩],
       [⟨"PROFILE#p1", "ACCOUNT#a2", some (.vlist [.vdict [("S", .vstr "read")]])⟩],
       [], [], [], [], []⟩
      "a2" "p1" "READ" = .ok (["READ"].contains "READ" || ["READ"].contains "WRITE") ∧
    check_profile_access
      ⟨[⟨"ACCOUNT#owner1", "PROFILE#p1", []⟩],
       [⟨"PROFILE#p1", "ACCOUNT#a2", some (.vlist [.vdict [("S", .vstr "read")]])⟩],
       [], [], [], [], []⟩
      "a2" "p1" "WRITE" = .ok (["READ"].contains "WRITE") :=
  ((share_gate_characterization _ "a2" "p1" (by rfl) (by rfl)).2
      ⟨"PROFILE#p1", "ACCOUNT#a2", some (.vlist [.vdict [("S", .vstr "read")]])⟩
      (by rfl)).1 ["READ"] (by rfl)

/-! ## Claims about is_admin -/

/-- The group-claim shapes on which the membership test succeeds, stated
declaratively: the single string ADMIN, a list containing the string
ADMIN, or a mapping among whose keys is ADMIN. -/
def groups_grant_admin : PyVal → Prop
  | .vstr s => s = "ADMIN"
  | .vlist l => PyVal.vstr "ADMIN" ∈ l
  | .vdict d => ∃ e ∈ d, e.1 = "ADMIN"
  | _ => False

/-- Declarative admin condition on a whole event, for comparison with
`is_admin`: a dict identity holding a dict claims whose cognito:groups
value grants admin. -/
def is_admin_spec (event : List (String × PyVal)) : Prop :=
  ∃ id c g, event.lookup "identity" = some (.vdict id) ∧
    id.lookup "claims" = some (.vdict c) ∧
    c.lookup "cognito:groups" = some g ∧ groups_grant_admin g

/-- The element test of Python list membership agrees with list
membership of the string ADMIN. -/
theorem listHasAdmin_iff (l : List PyVal) : listHasAdmin l = true ↔ PyVal.vstr "ADMIN" ∈ l := by
  induction l with
  | nil => simp [listHasAdmin]
  | cons x rest ih =>
    cases x with
    | vstr s =>
      simp only [listHasAdmin, Bool.or_eq_true, beq_iff_eq, ih, List.mem_cons]
      constructor
      · rintro (h | h)
        · exact Or.inl (by simp [h])
        · exact Or.inr h
      · rintro (h | h)
        · exact Or.inl (by cases h; rfl)
        · exact Or.inr h
    | vnum n => simp [listHasAdmin, ih]
    | vbool b => simp [listHasAdmin, ih]
    | vnone => simp [listHasAdmin, ih]
    | vlist l2 => simp [listHasAdmin, ih]
    | vdict d => simp [listHasAdmin, ih]

/-- C10 counterexample: a malformed cognito:groups value that is neither
a list nor a string — a mapping with key ADMIN — makes `is_admin` return
true (Python `in` on a dict tests key membership), where the claim
requires false for malformed groups values. -/
theorem is_admin_malformed_dict_counterexample :
    is_admin [("identity", .vdict [("claims", .vdict
      [("cognito:groups", .vdict [("ADMIN", .vnum 1)])])])] = true := by
  rfl

/-- C10 (amended): `is_admin` is total and returns true exactly when the
event carries a dict identity with a dict claims whose cognito:groups
value is the single string ADMIN, a list containing the string ADMIN, or
a mapping among whose keys is ADMIN; every other event — identity,
claims or groups missing or otherwise malformed — yields false rather
than an error. -/
theorem is_admin_characterization (event : List (String × PyVal)) :
    is_admin event = true ↔ is_admin_spec event := by
  unfold is_admin is_admin_body is_admin_spec
  cases h1 : event.lookup "identity" with
  | none => simp [pyGet, h1, containsAdmin, listHasAdmin]
  | some v =>
    cases v with
    | vdict id =>
      cases h2 : id.lookup "claims" with
      | none => simp [pyGet, h1, h2, containsAdmin, listHasAdmin]
      | some c =>
        cases c with
        | vdict cd =>
          cases h3 : cd.lookup "cognito:groups" with
          | none => simp [pyGet, h1, h2, h3, containsAdmin, listHasAdmin]
          | some g =>
            cases g with
            | vstr s =>
              simp [pyGet, h1, h2, h3, containsAdmin, listHasAdmin, groups_grant_admin]
            | vnum n => simp [pyGet, h1, h2, h3, containsAdmin, groups_grant_admin]
            | vbool b => simp [pyGet, h1, h2, h3, containsAdmin, groups_grant_admin]
            | vnone => simp [pyGet, h1, h2, h3, containsAdmin, groups_grant_admin]
            | vlist l =>
              simp [pyGet, h1, h2, h3, containsAdmin, groups_grant_admin, listHasAdmin_iff]
            | vdict d =>
              simp [pyGet, h1, h2, h3, containsAdmin, groups_grant_admin, List.any_eq_true]
        | vstr s => simp [pyGet, h1, h2]
        | vnum n => simp [pyGet, h1, h2]
        | vbool b => simp [pyGet, h1, h2]
        | vnone => simp [pyGet, h1, h2]
        | vlist l => simp [pyGet, h1, h2]
    | vstr s => simp [pyGet, h1]
    | vnum n => simp [pyGet, h1]
    | vbool b => simp [pyGet, h1]
    | vnone => simp [pyGet, h1]
    | vlist l => simp [pyGet, h1]

/-! ## Claims about the ownership transfer -/

/-- Nothing in a list filtered on the negation of `k` satisfies `k`. -/
theorem find?_filter_not_pred {α : Type} (k : α → Bool) (l : List α) :
    (l.filter fun x => !(k x)).find? k = none := by
  refine List.find?_eq_none.mpr fun x hx => ?_
  have h := (List.mem_filter.mp hx).2
  simp at h
  simp [h]

/-- C4: with the profile present and the caller authorized (owner or
admin), the transfer fails with the "new owner must have existing
access" validation error exactly when the caller is not admin and no
Share keyed (profileId, newOwnerAccountId) exists; that failure leaves
the whole store untouched; and an admin-initiated transfer succeeds even
with no prior Share, returning the re-owned profile. -/
theorem transfer_share_gate (cfg : Config) (st : Store)
    (event : List (String × PyVal)) (sub pid newOwner : String)
    (profile : ProfileItem) (rest : List ProfileItem)
    (hpid : pid ≠ "") (hnew : newOwner ≠ "") (hsub : sub ≠ "")
    (hextract : extract_transfer_args event = .ok (sub, pid, newOwner))
    (hex : st.profiles.filter (fun p => p.profileId == normalize_profile_id pid) =
      profile :: rest)
    (hauth : profile.ownerAccountId = normalize_account_id sub ∨ is_admin event = true) :
    ((transfer_lambda_handler cfg event st).2 =
        .error (.py (.valueError "New owner must have existing access to the profile")) ↔
      is_admin event = false ∧
        get_share st (normalize_profile_id pid) (normalize_account_id newOwner) = none) ∧
    (is_admin event = false ∧
        get_share st (normalize_profile_id pid) (normalize_account_id newOwner) = none →
      transfer_lambda_handler cfg event st =
        (st, .error (.py (.valueError "New owner must have existing access to the profile")))) ∧
    (is_admin event = true →
      (transfer_lambda_handler cfg event st).2 =
        .ok { profile with ownerAccountId := normalize_account_id newOwner }) := by
  have hverify : get_and_verify_profile st (normalize_profile_id pid)
      (normalize_account_id sub) event = .ok profile := by
    rcases hauth with h | h
    · simp [get_and_verify_profile, hex, h]
    · simp [get_and_verify_profile, hex, h]
  cases hadm : is_admin event with
  | true =>
    refine ⟨?_, ?_, ?_⟩
    · simp only [transfer_lambda_handler, hextract, ensure_profile_id, ensure_account_id,
        hpid, hnew, hsub, if_neg, Option.getD_some]
      simp [hverify, verify_new_owner_has_share, hadm]
    · simp [hadm]
    · intro _
      simp only [transfer_lambda_handler, hextract, ensure_profile_id, ensure_account_id,
        hpid, hnew, hsub, if_neg, Option.getD_some]
      simp [hverify, verify_new_owner_has_share, hadm, transfer_ownership]
  | false =>
    cases hshare : get_share st (normalize_profile_id pid) (normalize_account_id newOwner) with
    | none =>
      refine ⟨?_, ?_, ?_⟩
      · simp only [transfer_lambda_handler, hextract, ensure_profile_id, ensure_account_id,
          hpid, hnew, hsub, if_neg, Option.getD_some]
        simp [hverify, verify_new_owner_has_share, hadm, hshare]
      · intro _
        simp only [transfer_lambda_handler, hextract, ensure_profile_id, ensure_account_id,
          hpid, hnew, hsub, if_neg, Option.getD_some]
        simp [hverify, verify_new_owner_has_share, hadm, hshare]
      · intro h
        exact absurd h (by simp [hadm])
    | some share =>
      refine ⟨?_, ?_, ?_⟩
      · simp only [transfer_lambda_handler, hextract, ensure_profile_id, ensure_account_id,
          hpid, hnew, hsub, if_neg, Option.getD_some]
        simp [hverify, verify_new_owner_has_share, hadm, hshare]
      · rintro ⟨-, hcontra⟩
        exact Option.noConfusion hcontra
      · intro h
        exact absurd h (by simp [hadm])

/-- Witness for C4 at a store holding one profile and no share: the
owner-initiated transfer to a share-less account fails with the
validation error and changes nothing. -/
theorem transfer_share_gate_witness :
    transfer_lambda_handler cfg0
      (mkTransferEvent "a1" (.vlist []) "p1" "a2")
      ⟨[⟨"ACCOUNT#a1", "PROFILE#p1", [("sellerName", "kid")]⟩], [], [], [], [], [], []⟩ =
      (⟨[⟨"ACCOUNT#a1", "PROFILE#p1", [("sellerName", "kid")]⟩], [], [], [], [], [], []⟩,
        .error (.py (.valueError "New owner must have existing access to the profile"))) :=
  (transfer_share_gate cfg0 _ _ "a1" "p1" "a2"
      ⟨"ACCOUNT#a1", "PROFILE#p1", [("sellerName", "kid")]⟩ []
      (by decide) (by decide) (by decide) (by rfl) (by rfl)
      (Or.inl (by decide))).2.1 ⟨by rfl, by rfl⟩

/-- C5: when the transfer proceeds (caller authorized and the share gate
passed), it returns the profile re-owned to the new account; the profile
item is found under the new composite key, no longer under the old one,
and — whenever the best-effort share delete is not faulted — no Share
keyed (profileId, newOwnerId) remains; a faulted share delete still
leaves the transfer successful. -/
theorem transfer_success_retires_share (cfg : Config) (st : Store)
    (event : List (String × PyVal)) (sub pid newOwner : String)
    (profile : ProfileItem) (rest : List ProfileItem)
    (hpid : pid ≠ "") (hnew : newOwner ≠ "") (hsub : sub ≠ "")
    (hextract : extract_transfer_args event = .ok (sub, pid, newOwner))
    (hex : st.profiles.filter (fun p => p.profileId == normalize_profile_id pid) =
      profile :: rest)
    (hauth : profile.ownerAccountId = normalize_account_id sub ∨ is_admin event = true)
    (hgate : is_admin event = true ∨
      (get_share st (normalize_profile_id pid) (normalize_account_id newOwner)).isSome = true) :
    (transfer_lambda_handler cfg event st).2 =
      .ok { profile with ownerAccountId := normalize_account_id newOwner } ∧
    get_profile_item (transfer_lambda_handler cfg event st).1
        (normalize_account_id newOwner) (normalize_profile_id pid) =
      some { profile with ownerAccountId := normalize_account_id newOwner } ∧
    (profile.ownerAccountId ≠ normalize_account_id newOwner →
      get_profile_item (transfer_lambda_handler cfg event st).1
        profile.ownerAccountId (normalize_profile_id pid) = none) ∧
    (cfg.shareDeleteFaults.contains
        (normalize_profile_id pid, normalize_account_id newOwner) = false →
      get_share (transfer_lambda_handler cfg event st).1
        (normalize_profile_id pid) (normalize_account_id newOwner) = none) := by
  have hverify : get_and_verify_profile st (normalize_profile_id pid)
      (normalize_account_id sub) event = .ok profile := by
    rcases hauth with h | h
    · simp [get_and_verify_profile, hex, h]
    · simp [get_and_verify_profile, hex, h]
  have hgate2 : verify_new_owner_has_share st (normalize_profile_id pid)
      (normalize_account_id newOwner) (is_admin event) = .ok () := by
    rcases hgate with h | h
    · simp [verify_new_owner_has_share, h]
    · rcases Option.isSome_iff_exists.mp h with ⟨share, hshare⟩
      cases hadm : is_admin event <;>
        simp [verify_new_owner_has_share, hshare, hadm]
  have hpidprof : profile.profileId = normalize_profile_id pid := by
    have hmem : profile ∈ st.profiles.filter
        (fun p => p.profileId == normalize_profile_id pid) := by
      rw [hex]; exact List.mem_cons_self _ _
    have := (List.mem_filter.mp hmem).2
    simpa using this
  have hred : transfer_lambda_handler cfg event st =
      (delete_share_if_exists cfg
        (transfer_ownership st profile (normalize_profile_id pid)
          (normalize_account_id newOwner)).1
        (normalize_profile_id pid) (normalize_account_id newOwner),
       .ok { profile with ownerAccountId := normalize_account_id newOwner }) := by
    simp only [transfer_lambda_handler, hextract, ensure_profile_id, ensure_account_id,
      hpid, hnew, hsub, if_neg, Option.getD_some]
    simp [hverify, hgate2, transfer_ownership]
  have hshares_unchanged : (transfer_ownership st profile (normalize_profile_id pid)
      (normalize_account_id newOwner)).1.shares = st.shares := by
    simp [transfer_ownership]
  have hprofiles_del : (delete_share_if_exists cfg
      (transfer_ownership st profile (normalize_profile_id pid)
        (normalize_account_id newOwner)).1
      (normalize_profile_id pid) (normalize_account_id newOwner)).profiles =
      (transfer_ownership st profile (normalize_profile_id pid)
        (normalize_account_id newOwner)).1.profiles := by
    unfold delete_share_if_exists
    split <;> rfl
  refine ⟨by rw [hred], ?_, ?_, ?_⟩
  · simp only [hred, get_profile_item]
    rw [hprofiles_del]
    simp only [transfer_ownership]
    rw [List.find?_append]
    rw [hpidprof]
    rw [find?_filter_not_pred]
    simp
  · intro hne
    simp only [hred, get_profile_item]
    rw [hprofiles_del]
    simp only [transfer_ownership]
    rw [List.find?_append]
    have h1 : (List.filter (fun p => !(p.ownerAccountId == profile.ownerAccountId &&
        p.profileId == normalize_profile_id pid)) st.profiles |>.filter
          (fun p => !(p.ownerAccountId == normalize_account_id newOwner &&
            p.profileId == normalize_profile_id pid))).find?
        (fun p => p.ownerAccountId == profile.ownerAccountId &&
          p.profileId == normalize_profile_id pid) = none := by
      refine List.find?_eq_none.mpr fun x hx => ?_
      have h2 := (List.mem_filter.mp (List.mem_filter.mp hx).1).2
      intro hpred
      rw [hpred] at h2
      simp at h2
    rw [hpidprof, h1]
    simp [hne, Ne.symm hne]
  · intro hfault
    rw [hred]
    unfold delete_share_if_exists
    rw [hfault]
    simp only [Bool.false_eq_true, if_false, get_share, hshares_unchanged]
    exact find?_filter_not_pred _ _

/-- Witness for C5: an admin-initiated transfer with no prior share at a
one-profile store. -/
theorem transfer_success_retires_share_witness :
    (transfer_lambda_handler cfg0
        (mkTransferEvent "adm" (.vlist [.vstr "ADMIN"]) "p1" "a2")
        ⟨[⟨"ACCOUNT#a1", "PROFILE#p1", [("sellerName", "kid")]⟩], [], [], [], [], [], []⟩).2 =
      .ok ⟨"ACCOUNT#a2", "PROFILE#p1", [("sellerName", "kid")]⟩ ∧
    get_profile_item (transfer_lambda_handler cfg0
        (mkTransferEvent "adm" (.vlist [.vstr "ADMIN"]) "p1" "a2")
        ⟨[⟨"ACCOUNT#a1", "PROFILE#p1", [("sellerName", "kid")]⟩], [], [], [], [], [], []⟩).1
        "ACCOUNT#a2" "PROFILE#p1" =
      some ⟨"ACCOUNT#a2", "PROFILE#p1", [("sellerName", "kid")]⟩ ∧
    get_profile_item (transfer_lambda_handler cfg0
        (mkTransferEvent "adm" (.vlist [.vstr "ADMIN"]) "p1" "a2")
        ⟨[⟨"ACCOUNT#a1", "PROFILE#p1", [("sellerName", "kid")]⟩], [], [], [], [], [], []⟩).1
        "ACCOUNT#a1" "PROFILE#p1" = none ∧
    get_share (transfer_lambda_handler cfg0
        (mkTransferEvent "adm" (.vlist [.vstr "ADMIN"]) "p1" "a2")
        ⟨[⟨"ACCOUNT#a1", "PROFILE#p1", [("sellerName", "kid")]⟩], [], [], [], [], [], []⟩).1
        "PROFILE#p1" "ACCOUNT#a2" = none := by
  have h := transfer_success_retires_share cfg0
    ⟨[⟨"ACCOUNT#a1", "PROFILE#p1", [("sellerName", "kid")]⟩], [], [], [], [], [], []⟩
    (mkTransferEvent "adm" (.vlist [.vstr "ADMIN"]) "p1" "a2") "adm" "p1" "a2"
    ⟨"ACCOUNT#a1", "PROFILE#p1", [("sellerName", "kid")]⟩ []
    (by decide) (by decide) (by decide) (by rfl) (by rfl)
    (Or.inr (by rfl)) (Or.inl (by rfl))
  exact ⟨h.1, h.2.1, h.2.2.1 (by decide), h.2.2.2 (by rfl)⟩

/-! ## Claims about admin_delete_user -/

/-- The fixture admin events carry the ADMIN group claim. -/
theorem is_admin_mkAdminEvent (sub aid : String) : is_admin (mkAdminEvent sub aid) = true := by
  rfl

/-- Admin validation on a fixture admin event returns the accountId
argument whenever it strips to itself and is nonempty. -/
theorem validate_mkAdminEvent (sub aid : String) (h1 : py_strip aid = aid) (h2 : aid ≠ "") :
    validate_admin_and_get_account_id (mkAdminEvent sub aid) = .ok aid := by
  have hbase : validate_admin_and_get_account_id (mkAdminEvent sub aid) =
      (if py_strip aid == "" then .error (.app .invalidInput "Account ID is required")
       else .ok (py_strip aid)) := rfl
  rw [hbase, h1]
  simp [h2]

/-- C9 counterexample: an admin targeting their own account id gets an
AppError with kind INVALID_INPUT, which is a different kind from the
FORBIDDEN the claim requires. -/
theorem admin_self_deletion_not_forbidden :
    (admin_delete_user cfg0 (mkAdminEvent "u1" "u1") st_empty).2 =
      .error (.app .invalidInput "Cannot delete your own account") ∧
    ErrorCode.invalidInput ≠ ErrorCode.forbidden :=
  ⟨by rfl, by decide⟩

/-- C9 (amended): when an admin calls admin_delete_user with their own
account id as the target, the operation fails with
AppError(INVALID_INPUT, "Cannot delete your own account") — the guard
runs before any Cognito or DynamoDB call, so no deletion is performed
and the store is returned unchanged. -/
theorem admin_self_deletion_invalid_input (cfg : Config) (st : Store) (sub : String)
    (h1 : py_strip sub = sub) (h2 : sub ≠ "") :
    admin_delete_user cfg (mkAdminEvent sub sub) st =
      (st, .error (.app .invalidInput "Cannot delete your own account")) := by
  have hsubv : pyGet (((mkAdminEvent sub sub).lookup "identity").getD (.vdict []))
      "sub" .vnone = .ok (.vstr sub) := rfl
  unfold admin_delete_user
  rw [validate_mkAdminEvent sub sub h1 h2, hsubv]
  simp [check_not_self_deletion, pyStr]

/-- Witness for the C9 amended theorem. -/
theorem admin_self_deletion_invalid_input_witness :
    admin_delete_user cfg0 (mkAdminEvent "u1" "u1") st_empty =
      (st_empty, .error (.app .invalidInput "Cannot delete your own account")) :=
  admin_self_deletion_invalid_input cfg0 st_empty "u1" (by rfl) (by decide)

/-! ## Claims about the cascade loops -/

/-- Removing one campaign key leaves the campaigns of any other profile
untouched. -/
theorem filter_other_profile (l : List CampaignItem) (pid cid q : String) (hq : q ≠ pid) :
    (l.filter fun c => !(c.profileId == pid && c.campaignId == cid)).filter
        (fun c => c.profileId == q) = l.filter (fun c => c.profileId == q) := by
  rw [List.filter_filter]
  refine List.filter_congr fun a _ => ?_
  cases ha : a.profileId == q with
  | false => simp [ha]
  | true =>
    have h2 : a.profileId = q := by simpa using ha
    simp [ha, h2, hq]

/-- Deleting campaigns of one profile never touches the campaigns of a
different profile, on any outcome of the loop. -/
theorem campaigns_delete_loop_other (cfg : Config) (pid : String) (cs : List CampaignItem)
    (st : Store) (count : Nat) (q : String) (hq : q ≠ pid) :
    ((campaigns_delete_loop cfg pid cs st count).1).campaigns.filter
        (fun c => c.profileId == q) =
      st.campaigns.filter (fun c => c.profileId == q) := by
  induction cs generalizing st count with
  | nil => rfl
  | cons c rest ih =>
    unfold campaigns_delete_loop
    cases hc : delete_campaign_item cfg st pid c.campaignId with
    | error e => rfl
    | ok st2 =>
      rw [ih]
      unfold delete_campaign_item at hc
      by_cases hf : cfg.campaignDeleteFaults.contains (pid, c.campaignId) = true
      · rw [if_pos hf] at hc
        exact Except.noConfusion hc
      · rw [if_neg hf] at hc
        have h3 := Except.ok.inj hc
        rw [← h3]
        exact filter_other_profile st.campaigns pid c.campaignId q hq

/-- A faulted key among the processed campaigns aborts the per-campaign
loop with the store as written so far. -/
theorem campaigns_delete_loop_fault (cfg : Config) (pid : String) (cs : List CampaignItem)
    (st : Store) (count : Nat)
    (h : ∃ c ∈ cs, cfg.campaignDeleteFaults.contains (pid, c.campaignId) = true) :
    ∃ st2, campaigns_delete_loop cfg pid cs st count =
      (st2, .error (.clientError "InternalServerError")) := by
  induction cs generalizing st count with
  | nil =>
    rcases h with ⟨c, hc, -⟩
    exact absurd hc (List.not_mem_nil c)
  | cons c rest ih =>
    unfold campaigns_delete_loop delete_campaign_item
    cases hc : cfg.campaignDeleteFaults.contains (pid, c.campaignId) with
    | true => exact ⟨st, by simp [hc]⟩
    | false =>
      rcases h with ⟨c2, hc2, hfault⟩
      rcases List.mem_cons.mp hc2 with rfl | hc2rest
      · rw [hc] at hfault
        exact Bool.noConfusion hfault
      · exact ih _ _ ⟨c2, hc2rest, hfault⟩

/-- With no faulted key among the processed campaigns the per-campaign
loop counts every processed item. -/
theorem campaigns_delete_loop_ok (cfg : Config) (pid : String) (cs : List CampaignItem)
    (st : Store) (count : Nat)
    (h : ∀ c ∈ cs, cfg.campaignDeleteFaults.contains (pid, c.campaignId) = false) :
    (campaigns_delete_loop cfg pid cs st count).2 = .ok (count + cs.length) := by
  induction cs generalizing st count with
  | nil => rfl
  | cons c rest ih =>
    unfold campaigns_delete_loop delete_campaign_item
    rw [h c (List.mem_cons_self c rest)]
    simp only [Bool.false_eq_true, if_false]
    rw [ih _ _ fun c2 hc2 => h c2 (List.mem_cons_of_mem c hc2)]
    simp only [List.length_cons]
    congr 1
    omega

/-- A faulted key among any enumerated profile page of campaigns makes
the whole profile loop return the ClientError, provided the enumerated
profiles carry distinct profileIds. -/
theorem campaigns_profile_loop_fault (cfg : Config) (ps : List ProfileItem)
    (st : Store) (count : Nat)
    (hnd : (ps.map (fun p => p.profileId)).Nodup)
    (h : ∃ p ∈ ps, ∃ c ∈ query_campaigns_by_profile cfg st p.profileId,
      cfg.campaignDeleteFaults.contains (p.profileId, c.campaignId) = true) :
    ∃ st2, campaigns_profile_loop cfg ps st count =
      (st2, .error (.clientError "InternalServerError")) := by
  induction ps generalizing st count with
  | nil =>
    rcases h with ⟨p, hp, -⟩
    exact absurd hp (List.not_mem_nil p)
  | cons p rest ih =>
    by_cases hp : ∃ c ∈ query_campaigns_by_profile cfg st p.profileId,
        cfg.campaignDeleteFaults.contains (p.profileId, c.campaignId) = true
    · rcases campaigns_delete_loop_fault cfg p.profileId
        (query_campaigns_by_profile cfg st p.profileId) st count hp with ⟨st2, hst2⟩
      exact ⟨st2, by unfold campaigns_profile_loop; rw [hst2]⟩
    · have hok : ∀ c ∈ query_campaigns_by_profile cfg st p.profileId,
          cfg.campaignDeleteFaults.contains (p.profileId, c.campaignId) = false := by
        intro c hc
        cases hcc : cfg.campaignDeleteFaults.contains (p.profileId, c.campaignId) with
        | false => rfl
        | true => exact absurd ⟨c, hc, hcc⟩ hp
      have hloop := campaigns_delete_loop_ok cfg p.profileId
        (query_campaigns_by_profile cfg st p.profileId) st count hok
      rcases hres : campaigns_delete_loop cfg p.profileId
          (query_campaigns_by_profile cfg st p.profileId) st count with ⟨st2, r⟩
      rw [hres] at hloop
      simp only at hloop
      rcases h with ⟨p2, hp2, c2, hc2, hfault⟩
      rcases List.mem_cons.mp hp2 with rfl | hp2rest
      · exact absurd ⟨c2, hc2, hfault⟩ hp
      · have hqne : p2.profileId ≠ p.profileId := by
          intro heq
          have hpmem : p.profileId ∈ rest.map (fun x => x.profileId) :=
            heq ▸ List.mem_map_of_mem (fun x => x.profileId) hp2rest
          exact (List.nodup_cons.mp hnd).1 hpmem
        have hpreserve := campaigns_delete_loop_other cfg p.profileId
          (query_campaigns_by_profile cfg st p.profileId) st count p2.profileId hqne
        rw [hres] at hpreserve
        simp only at hpreserve
        have hq2 : query_campaigns_by_profile cfg st2 p2.profileId =
            query_campaigns_by_profile cfg st p2.profileId := by
          unfold query_campaigns_by_profile
          rw [hpreserve]
        have := ih st2 (count + (query_campaigns_by_profile cfg st p.profileId).length)
          (List.nodup_cons.mp hnd).2
          ⟨p2, hp2rest, c2, by rw [hq2]; exact hc2, hfault⟩
        rcases this with ⟨st3, hst3⟩
        refine ⟨st3, ?_⟩
        unfold campaigns_profile_loop
        rw [hres, hloop]
        exact hst3

/-- Configuration for the C6 scenario: the store raises on deleting
campaign key (PROFILE#p1, CAMP#c1). -/
def cfg_c6 : Config := ⟨10, [("PROFILE#p1", "CAMP#c1")], [], [], true, none, none⟩

/-- Store for the C6 scenario: one profile of account u2 with two
campaigns. -/
def st_c6 : Store :=
  ⟨[⟨"ACCOUNT#u2", "PROFILE#p1", []⟩], [],
   [⟨"PROFILE#p1", "CAMP#c1"⟩, ⟨"PROFILE#p1", "CAMP#c2"⟩], [], [], [], []⟩

/-- C6 counterexample: with the first campaign delete failing,
admin_delete_user_campaigns raises AppError(INTERNAL_ERROR) instead of
continuing the loop and returning a best-effort count; the returned
store still holds both campaigns, so the remaining item was not
deleted either. -/
theorem admin_delete_user_campaigns_abort_counterexample :
    admin_delete_user_campaigns cfg_c6 (mkAdminEvent "admin1" "u2") st_c6 =
      (st_c6, .error (.app .internalError "Failed to delete user campaigns")) := by
  rfl

/-- C6 (amended): in the admin bulk-delete cascades there is no per-item
except clause: a failing per-item deletion aborts the remaining loop and
the function-level handler re-raises it as AppError(INTERNAL_ERROR)
instead of returning a best-effort count (stated for
admin_delete_user_campaigns; the five cascade functions share this
structure). -/
theorem campaigns_per_item_failure_aborts (cfg : Config) (st : Store) (sub aid : String)
    (h1 : py_strip aid = aid) (h2 : aid ≠ "")
    (hnd : (st.profiles.map (fun p => p.profileId)).Nodup)
    (hfault : ∃ p ∈ query_profiles_by_owner cfg st (normalize_account_id aid),
      ∃ c ∈ query_campaigns_by_profile cfg st p.profileId,
        cfg.campaignDeleteFaults.contains (p.profileId, c.campaignId) = true) :
    (admin_delete_user_campaigns cfg (mkAdminEvent sub aid) st).2 =
      .error (.app .internalError "Failed to delete user campaigns") := by
  have hndq : ((query_profiles_by_owner cfg st (normalize_account_id aid)).map
      (fun p => p.profileId)).Nodup := by
    have hsub : (query_profiles_by_owner cfg st (normalize_account_id aid)).Sublist
        st.profiles :=
      (List.take_sublist _ _).trans (List.filter_sublist _)
    exact hnd.sublist (hsub.map _)
  rcases campaigns_profile_loop_fault cfg _ st 0 hndq hfault with ⟨st2, hst2⟩
  unfold admin_delete_user_campaigns
  rw [validate_mkAdminEvent sub aid h1 h2]
  simp only [hst2, wrap_admin_errors]

/-- Witness for the C6 amended theorem at the C6 scenario. -/
theorem campaigns_per_item_failure_aborts_witness :
    (admin_delete_user_campaigns cfg_c6 (mkAdminEvent "admin1" "u2") st_c6).2 =
      .error (.app .internalError "Failed to delete user campaigns") :=
  campaigns_per_item_failure_aborts cfg_c6 st_c6 "admin1" "u2" (by rfl) (by decide)
    (by decide)
    ⟨⟨"ACCOUNT#u2", "PROFILE#p1", []⟩, by decide, ⟨"PROFILE#p1", "CAMP#c1"⟩, by decide,
      by decide⟩

/-! ## Pagination of the cascade queries (C7) -/

/-- The effect of one soft delete on a matching catalog. -/
def mark_catalog (owner : String) (c : CatalogItem) : CatalogItem :=
  if catalog_matches owner c then { c with isDeleted := some true } else c

/-- Folding soft deletes over a batch marks exactly the ids of the
batch. -/
theorem soft_delete_foldl (ms : List CatalogItem) (st : Store) :
    ms.foldl (fun s c => soft_delete_catalog s c.catalogId) st =
      { st with catalogs := st.catalogs.map (fun c =>
          if (ms.map (fun m => m.catalogId)).contains c.catalogId
          then { c with isDeleted := some true } else c) } := by
  induction ms generalizing st with
  | nil => simp
  | cons m rest ih =>
    rw [List.foldl_cons, ih]
    unfold soft_delete_catalog
    simp only [List.map_map, List.map_cons]
    congr 1
    refine List.map_congr_left fun c _ => ?_
    simp only [Function.comp_apply]
    by_cases h1 : c.catalogId = m.catalogId
    · simp [h1]
    · have h2 : (c.catalogId == m.catalogId) = false := by simpa using h1
      by_cases h3 : (rest.map (fun x => x.catalogId)).contains c.catalogId = true
      · simp [h2, h3, h1]
      · have h4 : (rest.map (fun x => x.catalogId)).contains c.catalogId = false := by
          simpa using h3
        simp [h2, h3, h4, h1]

/-- Marking the matched ids of the middle chunk rewrites exactly that
chunk, when catalog ids are unique across the whole list. -/
theorem map_mark_append (A B C : List CatalogItem) (owner : String)
    (hnd : ((A ++ B ++ C).map (fun c => c.catalogId)).Nodup) :
    (A ++ B ++ C).map (fun c =>
      if ((B.filter (catalog_matches owner)).map (fun m => m.catalogId)).contains c.catalogId
      then { c with isDeleted := some true } else c) =
      A ++ B.map (mark_catalog owner) ++ C := by
  simp only [List.map_append] at hnd
  rw [List.nodup_append] at hnd
  rcases hnd with ⟨hndAB, hndC, hdisjC⟩
  rw [List.nodup_append] at hndAB
  rcases hndAB with ⟨hndA, hndB, hdisjAB⟩
  have hsubids : ∀ x, x ∈ (B.filter (catalog_matches owner)).map (fun m => m.catalogId) →
      x ∈ B.map (fun m => m.catalogId) := by
    intro x hx
    rcases List.mem_map.mp hx with ⟨m, hm, rfl⟩
    exact List.mem_map_of_mem _ (List.mem_of_mem_filter hm)
  have hA : ∀ a ∈ A, (if ((B.filter (catalog_matches owner)).map
      (fun m => m.catalogId)).contains a.catalogId
      then { a with isDeleted := some true } else a) = a := by
    intro a ha
    have hnotin : ¬ a.catalogId ∈ (B.filter (catalog_matches owner)).map
        (fun m => m.catalogId) := by
      intro hin
      exact hdisjAB (List.mem_map_of_mem _ ha) (hsubids _ hin)
    simp [hnotin]
  have hC : ∀ c ∈ C, (if ((B.filter (catalog_matches owner)).map
      (fun m => m.catalogId)).contains c.catalogId
      then { c with isDeleted := some true } else c) = c := by
    intro c hc
    have hnotin : ¬ c.catalogId ∈ (B.filter (catalog_matches owner)).map
        (fun m => m.catalogId) := by
      intro hin
      exact hdisjC (List.mem_append_right _ (hsubids _ hin)) (List.mem_map_of_mem _ hc)
    simp [hnotin]
  have hB : ∀ b ∈ B, (if ((B.filter (catalog_matches owner)).map
      (fun m => m.catalogId)).contains b.catalogId
      then { b with isDeleted := some true } else b) = mark_catalog owner b := by
    intro b hb
    unfold mark_catalog
    cases hp : catalog_matches owner b with
    | true =>
      have hin : b.catalogId ∈ (B.filter (catalog_matches owner)).map
          (fun m => m.catalogId) :=
        List.mem_map_of_mem _ (List.mem_filter.mpr ⟨hb, hp⟩)
      simp [hin]
    | false =>
      have hnotin : ¬ b.catalogId ∈ (B.filter (catalog_matches owner)).map
          (fun m => m.catalogId) := by
        intro hin
        rcases List.mem_map.mp hin with ⟨m, hm, hmid⟩
        have hmB := List.mem_of_mem_filter hm
        have : m = b := List.inj_on_of_nodup_map hndB hmB hb hmid
        rw [this] at hm
        rw [(List.mem_filter.mp hm).2] at hp
        exact Bool.noConfusion hp
      simp [hnotin]
  simp only [List.map_append]
  rw [List.map_congr_left hA, List.map_congr_left hC, List.map_congr_left hB]
  simp

/-- Marking the ids matched within the page from `start` of length `k`
rewrites exactly that page slice. -/
theorem map_mark_page (l : List CatalogItem) (start k : Nat) (owner : String)
    (hnd : (l.map (fun c => c.catalogId)).Nodup) :
    l.map (fun c =>
      if ((((l.drop start).take k).filter (catalog_matches owner)).map
          (fun m => m.catalogId)).contains c.catalogId
      then { c with isDeleted := some true } else c) =
      l.take start ++ ((l.drop start).take k).map (mark_catalog owner) ++
        l.drop (start + k) := by
  have hdecomp : l.take start ++ (l.drop start).take k ++ l.drop (start + k) = l := by
    rw [List.append_assoc, ← List.drop_drop, List.take_append_drop, List.take_append_drop]
  have key := map_mark_append (l.take start) ((l.drop start).take k) (l.drop (start + k))
    owner (by rw [hdecomp]; exact hnd)
  rw [hdecomp] at key
  exact key

/-- Slicing a list as prefix, page and remainder. -/
theorem take_page_drop {α : Type} (l : List α) (start k : Nat) :
    l.take start ++ (l.drop start).take k ++ l.drop (start + k) = l := by
  rw [List.append_assoc, ← List.drop_drop, List.take_append_drop, List.take_append_drop]

/-- The page together with the remainder is the whole suffix. -/
theorem page_append_drop {α : Type} (l : List α) (start k : Nat) :
    (l.drop start).take k ++ l.drop (start + k) = l.drop start := by
  rw [← List.drop_drop, List.take_append_drop]

/-- Marking preserves catalog ids. -/
theorem mark_catalog_id (owner : String) (a : CatalogItem) :
    (mark_catalog owner a).catalogId = a.catalogId := by
  unfold mark_catalog
  by_cases h : catalog_matches owner a = true <;> simp [h]

/-- The scan loop of `_scan_and_delete_catalogs` soft deletes every
matching catalog from position `start` on and counts each exactly once,
whatever the positive page size, provided the fuel covers the remaining
length and catalog ids are unique. -/
theorem scan_catalogs_loop_spec (cfg : Config) (owner : String) (fuel : Nat) :
    ∀ start st count, 1 ≤ cfg.pageSize →
    (st.catalogs.map (fun c => c.catalogId)).Nodup →
    st.catalogs.length + 1 - start ≤ fuel →
    scan_catalogs_loop cfg owner fuel start st count =
      ({ st with catalogs := st.catalogs.take start ++
          (st.catalogs.drop start).map (mark_catalog owner) },
       count + ((st.catalogs.drop start).filter (catalog_matches owner)).length) := by
  induction fuel with
  | zero =>
    intro start st count hps hnd hfuel
    have hlen : st.catalogs.length ≤ start := by omega
    unfold scan_catalogs_loop
    rw [List.take_of_length_le hlen, List.drop_eq_nil_of_le hlen]
    simp
  | succ fuel ih =>
    intro start st count hps hnd hfuel
    simp only [scan_catalogs_loop]
    rw [soft_delete_foldl]
    rw [map_mark_page st.catalogs start cfg.pageSize owner hnd]
    have hmarkids : (((st.catalogs.drop start).take cfg.pageSize).map
        (mark_catalog owner)).map (fun c => c.catalogId) =
        ((st.catalogs.drop start).take cfg.pageSize).map (fun c => c.catalogId) := by
      rw [List.map_map]
      exact List.map_congr_left fun a _ => mark_catalog_id owner a
    have hids : ((st.catalogs.take start ++
        ((st.catalogs.drop start).take cfg.pageSize).map (mark_catalog owner) ++
        st.catalogs.drop (start + cfg.pageSize)).map (fun c => c.catalogId)) =
        st.catalogs.map (fun c => c.catalogId) := by
      rw [List.map_append, List.map_append, hmarkids, ← List.map_append, ← List.map_append,
        take_page_drop]
    have hlen2 : (st.catalogs.take start ++
        ((st.catalogs.drop start).take cfg.pageSize).map (mark_catalog owner) ++
        st.catalogs.drop (start + cfg.pageSize)).length = st.catalogs.length := by
      have h1 := congrArg List.length hids
      simpa using h1
    by_cases hlt : start + cfg.pageSize < st.catalogs.length
    · rw [if_pos hlt]
      have hstartle : start ≤ st.catalogs.length := by omega
      have hTM : (st.catalogs.take start ++
          ((st.catalogs.drop start).take cfg.pageSize).map (mark_catalog owner)).length =
          start + cfg.pageSize := by
        simp only [List.length_append, List.length_take, List.length_map, List.length_drop]
        omega
      rw [ih (start + cfg.pageSize) _ _ hps (hids ▸ hnd) (by rw [hlen2]; omega)]
      rw [Prod.mk.injEq]
      refine ⟨?_, ?_⟩
      · congr 1
        rw [← hTM, List.take_left, List.drop_left, hTM]
        rw [List.append_assoc, ← List.map_append, page_append_drop]
      · rw [← hTM, List.drop_left, hTM]
        have hsplit : (st.catalogs.drop start).filter (catalog_matches owner) =
            ((st.catalogs.drop start).take cfg.pageSize).filter (catalog_matches owner) ++
            (st.catalogs.drop (start + cfg.pageSize)).filter (catalog_matches owner) := by
          rw [← List.filter_append, page_append_drop]
        rw [hsplit, List.length_append]
        omega
    · rw [if_neg hlt]
      have hge : st.catalogs.length ≤ start + cfg.pageSize := by omega
      have hpage : (st.catalogs.drop start).take cfg.pageSize = st.catalogs.drop start := by
        refine List.take_of_length_le ?_
        rw [List.length_drop]
        omega
      have hD : st.catalogs.drop (start + cfg.pageSize) = [] :=
        List.drop_eq_nil_of_le hge
      rw [hpage, hD]
      simp

/-- The catalog scan follows the continuation token to the end of the
table, so it touches every matching catalog no matter the page size. -/
theorem scan_and_delete_catalogs_spec (cfg : Config) (st : Store) (owner : String)
    (hps : 1 ≤ cfg.pageSize) (hnd : (st.catalogs.map (fun c => c.catalogId)).Nodup) :
    scan_and_delete_catalogs cfg st owner =
      ({ st with catalogs := st.catalogs.map (mark_catalog owner) },
       (st.catalogs.filter (catalog_matches owner)).length) := by
  unfold scan_and_delete_catalogs
  rw [scan_catalogs_loop_spec cfg owner (st.catalogs.length + 1) 0 st 0 hps hnd (by omega)]
  simp

/-- `admin_delete_user_catalogs` on an admin event soft deletes every
matching catalog and returns the exact count. -/
theorem admin_delete_user_catalogs_spec (cfg : Config) (st : Store) (sub aid : String)
    (h1 : py_strip aid = aid) (h2 : aid ≠ "") (hps : 1 ≤ cfg.pageSize)
    (hnd : (st.catalogs.map (fun c => c.catalogId)).Nodup) :
    admin_delete_user_catalogs cfg (mkAdminEvent sub aid) st =
      ({ st with catalogs := st.catalogs.map (mark_catalog (normalize_account_id aid)) },
       .ok ((st.catalogs.filter (catalog_matches (normalize_account_id aid))).length)) := by
  unfold admin_delete_user_catalogs
  rw [validate_mkAdminEvent sub aid h1 h2]
  simp only [scan_and_delete_catalogs_spec cfg st (normalize_account_id aid) hps hnd]

/-- Any item whose key is not among the processed campaigns survives the
per-campaign delete loop. -/
theorem campaigns_delete_loop_mem (cfg : Config) (pid : String) (cs : List CampaignItem)
    (st : Store) (count : Nat) (x : CampaignItem)
    (hx : x ∈ st.campaigns)
    (hkey : ∀ c ∈ cs, ¬(x.profileId = pid ∧ x.campaignId = c.campaignId)) :
    x ∈ ((campaigns_delete_loop cfg pid cs st count).1).campaigns := by
  induction cs generalizing st count with
  | nil => exact hx
  | cons c rest ih =>
    unfold campaigns_delete_loop
    cases hc : delete_campaign_item cfg st pid c.campaignId with
    | error e => exact hx
    | ok st2 =>
      unfold delete_campaign_item at hc
      by_cases hf : cfg.campaignDeleteFaults.contains (pid, c.campaignId) = true
      · rw [if_pos hf] at hc
        exact Except.noConfusion hc
      · rw [if_neg hf] at hc
        have h3 := Except.ok.inj hc
        refine ih st2 (count + 1) ?_ fun c2 hc2 => hkey c2 (List.mem_cons_of_mem c hc2)
        rw [← h3]
        refine List.mem_filter.mpr ⟨hx, ?_⟩
        have h4 := hkey c (List.mem_cons_self c rest)
        cases h5 : x.profileId == pid with
        | false => simp [h5]
        | true =>
          have h6 : x.profileId = pid := by simpa using h5
          have h7 : x.campaignId ≠ c.campaignId := fun h => h4 ⟨h6, h⟩
          simp [h5, h7]

/-- C7 (amended): only the catalog soft-delete scan follows continuation
tokens until exhausted — it soft deletes and counts every matching
catalog whatever the page size — while the other cascade sub-operations
issue single unpaginated queries, shown on admin_delete_user_campaigns:
for an account owning one profile, only the first page of its campaigns
is deleted and counted, and every campaign beyond the first page
survives in the store. -/
theorem cascade_pagination_characterization (cfg : Config) (st : Store) (sub aid : String)
    (p : ProfileItem)
    (h1 : py_strip aid = aid) (h2 : aid ≠ "") (hps : 1 ≤ cfg.pageSize)
    (hcatnd : (st.catalogs.map (fun c => c.catalogId)).Nodup)
    (hprof : st.profiles.filter
      (fun q => q.ownerAccountId == normalize_account_id aid) = [p])
    (hcampnd : (st.campaigns.map (fun c => (c.profileId, c.campaignId))).Nodup)
    (hnofault : cfg.campaignDeleteFaults = []) :
    (admin_delete_user_catalogs cfg (mkAdminEvent sub aid) st).2 =
      .ok ((st.catalogs.filter (catalog_matches (normalize_account_id aid))).length) ∧
    (admin_delete_user_catalogs cfg (mkAdminEvent sub aid) st).1.catalogs =
      st.catalogs.map (mark_catalog (normalize_account_id aid)) ∧
    (admin_delete_user_campaigns cfg (mkAdminEvent sub aid) st).2 =
      .ok (min cfg.pageSize
        ((st.campaigns.filter (fun c => c.profileId == p.profileId)).length)) ∧
    ∀ c ∈ (st.campaigns.filter (fun c => c.profileId == p.profileId)).drop cfg.pageSize,
      c ∈ (admin_delete_user_campaigns cfg (mkAdminEvent sub aid) st).1.campaigns := by
  have hcat := admin_delete_user_catalogs_spec cfg st sub aid h1 h2 hps hcatnd
  rcases hres : campaigns_delete_loop cfg p.profileId
      (query_campaigns_by_profile cfg st p.profileId) st 0 with ⟨st2, r⟩
  have hok0 := campaigns_delete_loop_ok cfg p.profileId
    (query_campaigns_by_profile cfg st p.profileId) st 0 (fun c _ => by rw [hnofault]; rfl)
  rw [hres] at hok0
  simp only at hok0
  have hfn : admin_delete_user_campaigns cfg (mkAdminEvent sub aid) st =
      (st2, .ok (min cfg.pageSize
        ((st.campaigns.filter (fun c => c.profileId == p.profileId)).length))) := by
    unfold admin_delete_user_campaigns
    rw [validate_mkAdminEvent sub aid h1 h2]
    simp only [query_profiles_by_owner, hprof]
    rw [List.take_of_length_le (by simpa using hps)]
    unfold campaigns_profile_loop
    rw [hres]
    simp only [hok0]
    unfold campaigns_profile_loop
    simp [query_campaigns_by_profile, List.length_take]
  refine ⟨by rw [hcat], by rw [hcat], by rw [hfn], ?_⟩
  intro c hc
  have hcfilter : c ∈ st.campaigns.filter (fun q => q.profileId == p.profileId) :=
    List.mem_of_mem_drop hc
  have hcmem : c ∈ st.campaigns := List.mem_of_mem_filter hcfilter
  have hsplitkeys := hcampnd.sublist
    ((List.filter_sublist (l := st.campaigns)
      (p := fun q => q.profileId == p.profileId)).map (fun q => (q.profileId, q.campaignId)))
  rw [← List.take_append_drop cfg.pageSize
    (st.campaigns.filter (fun q => q.profileId == p.profileId)), List.map_append,
    List.nodup_append] at hsplitkeys
  have hdisj := hsplitkeys.2.2
  have hkey : ∀ c2 ∈ query_campaigns_by_profile cfg st p.profileId,
      ¬(c.profileId = p.profileId ∧ c.campaignId = c2.campaignId) := by
    rintro c2 hc2 ⟨hpid2, hcid2⟩
    have hc2pid : c2.profileId = p.profileId := by
      simpa using (List.mem_filter.mp (List.mem_of_mem_take hc2)).2
    have hkc : (c.profileId, c.campaignId) ∈
        ((st.campaigns.filter (fun q => q.profileId == p.profileId)).drop
          cfg.pageSize).map (fun q => (q.profileId, q.campaignId)) :=
      List.mem_map_of_mem _ hc
    have hkc2 : (c.profileId, c.campaignId) ∈
        ((st.campaigns.filter (fun q => q.profileId == p.profileId)).take
          cfg.pageSize).map (fun q => (q.profileId, q.campaignId)) := by
      have hm0 : (c2.profileId, c2.campaignId) ∈
          (query_campaigns_by_profile cfg st p.profileId).map
            (fun q => (q.profileId, q.campaignId)) :=
        List.mem_map_of_mem _ hc2
      have heq : (c2.profileId, c2.campaignId) = (c.profileId, c.campaignId) := by
        rw [hc2pid, hpid2, hcid2]
      rw [heq] at hm0
      exact hm0
    exact hdisj hkc2 hkc
  have hmem2 := campaigns_delete_loop_mem cfg p.profileId
    (query_campaigns_by_profile cfg st p.profileId) st 0 c hcmem hkey
  rw [hres] at hmem2
  rw [hfn]
  exact hmem2

/-- Configuration for the C7 scenario: the store paginates at one item
per page, no faults. -/
def cfg_c7 : Config := ⟨1, [], [], [], true, none, none⟩

/-- Store for the C7 counterexample: one profile of account u3 with two
campaigns, which span two result pages at page size one. -/
def st_c7 : Store :=
  ⟨[⟨"ACCOUNT#u3", "PROFILE#p7", []⟩], [],
   [⟨"PROFILE#p7", "CAMP#c1"⟩, ⟨"PROFILE#p7", "CAMP#c2"⟩], [], [], [], []⟩

/-- C7 counterexample: with the account campaigns spanning two pages,
admin_delete_user_campaigns deletes and counts only the first page —
the returned count is 1 and CAMP#c2 survives — because the query result
token is never followed. -/
theorem admin_delete_user_campaigns_misses_second_page :
    admin_delete_user_campaigns cfg_c7 (mkAdminEvent "adm" "u3") st_c7 =
      (⟨[⟨"ACCOUNT#u3", "PROFILE#p7", []⟩], [],
        [⟨"PROFILE#p7", "CAMP#c2"⟩], [], [], [], []⟩, .ok 1) := by
  rfl

/-- Store for the C7 witness: campaigns and catalogs both span several
pages at page size one. -/
def st_c7w : Store :=
  ⟨[⟨"ACCOUNT#u3", "PROFILE#p7", []⟩], [],
   [⟨"PROFILE#p7", "CAMP#c1"⟩, ⟨"PROFILE#p7", "CAMP#c2"⟩], [],
   [⟨"CAT#k1", "ACCOUNT#u3", none⟩, ⟨"CAT#k2", "ACCOUNT#u3", some false⟩,
    ⟨"CAT#k3", "ACCOUNT#zz", none⟩], [], []⟩

/-- Witness for the C7 amended theorem at the three-page catalog store. -/
theorem cascade_pagination_characterization_witness :
    (admin_delete_user_catalogs cfg_c7 (mkAdminEvent "adm" "u3") st_c7w).2 =
      .ok ((st_c7w.catalogs.filter (catalog_matches (normalize_account_id "u3"))).length) ∧
    (admin_delete_user_catalogs cfg_c7 (mkAdminEvent "adm" "u3") st_c7w).1.catalogs =
      st_c7w.catalogs.map (mark_catalog (normalize_account_id "u3")) ∧
    (admin_delete_user_campaigns cfg_c7 (mkAdminEvent "adm" "u3") st_c7w).2 =
      .ok (min cfg_c7.pageSize
        ((st_c7w.campaigns.filter (fun c => c.profileId == "PROFILE#p7")).length)) ∧
    ∀ c ∈ (st_c7w.campaigns.filter (fun c => c.profileId == "PROFILE#p7")).drop
        cfg_c7.pageSize,
      c ∈ (admin_delete_user_campaigns cfg_c7 (mkAdminEvent "adm" "u3") st_c7w).1.campaigns :=
  cascade_pagination_characterization cfg_c7 st_c7w "adm" "u3"
    ⟨"ACCOUNT#u3", "PROFILE#p7", []⟩
    (by rfl) (by decide) (by decide) (by decide) (by rfl) (by decide) (by rfl)

/-! ## Self-service account deletion (C8) -/

/-- The pseudo event of `_delete_all_user_data` is an admin event for
the caller's own account. -/
theorem mk_pseudo_event_eq (aid : String) : mk_pseudo_event aid = mkAdminEvent aid aid := rfl

/-- A fault-free order delete succeeds and only touches the orders
table. -/
theorem delete_order_item_nofault (cfg : Config) (st : Store) (cid oid : String)
    (h : cfg.orderDeleteFaults = []) :
    delete_order_item cfg st cid oid =
      .ok { st with orders := st.orders.filter fun o =>
        !(o.campaignId == cid && o.orderId == oid) } := by
  unfold delete_order_item
  rw [h]
  rfl

/-- The fault-free order loop succeeds and leaves Cognito untouched. -/
theorem delete_orders_loop_ok (cfg : Config) (cid : String) (os : List OrderItem)
    (st : Store) (count : Nat) (h : cfg.orderDeleteFaults = []) :
    ∃ st2 n, delete_orders_loop cfg cid os st count = (st2, .ok n) ∧
      st2.cognitoUsers = st.cognitoUsers := by
  induction os generalizing st count with
  | nil => exact ⟨st, count, rfl, rfl⟩
  | cons o rest ih =>
    unfold delete_orders_loop
    rw [delete_order_item_nofault cfg st cid o.orderId h]
    rcases ih _ (count + 1) with ⟨st2, n, hres, hcog⟩
    exact ⟨st2, n, hres, hcog⟩

/-- The fault-free per-campaign order loop succeeds and leaves Cognito
untouched. -/
theorem orders_campaign_loop_ok (cfg : Config) (cs : List CampaignItem)
    (st : Store) (count : Nat) (h : cfg.orderDeleteFaults = []) :
    ∃ st2 n, orders_campaign_loop cfg cs st count = (st2, .ok n) ∧
      st2.cognitoUsers = st.cognitoUsers := by
  induction cs generalizing st count with
  | nil => exact ⟨st, count, rfl, rfl⟩
  | cons c rest ih =>
    unfold orders_campaign_loop delete_orders_for_campaign
    rcases delete_orders_loop_ok cfg c.campaignId
      (query_orders_by_campaign cfg st c.campaignId) st 0 h with ⟨st2, n, hres, hcog⟩
    rw [hres]
    rcases ih st2 (count + n) with ⟨st3, n3, hres3, hcog3⟩
    exact ⟨st3, n3, hres3, hcog3.trans hcog⟩

/-- The fault-free per-profile order loop succeeds and leaves Cognito
untouched. -/
theorem orders_profile_loop_ok (cfg : Config) (ps : List ProfileItem)
    (st : Store) (count : Nat) (h : cfg.orderDeleteFaults = []) :
    ∃ st2 n, orders_profile_loop cfg ps st count = (st2, .ok n) ∧
      st2.cognitoUsers = st.cognitoUsers := by
  induction ps generalizing st count with
  | nil => exact ⟨st, count, rfl, rfl⟩
  | cons p rest ih =>
    unfold orders_profile_loop
    rcases orders_campaign_loop_ok cfg (query_campaigns_by_profile cfg st p.profileId)
      st count h with ⟨st2, n, hres, hcog⟩
    rw [hres]
    rcases ih st2 n with ⟨st3, n3, hres3, hcog3⟩
    exact ⟨st3, n3, hres3, hcog3.trans hcog⟩

/-- Fault-free `admin_delete_user_orders` on an admin event succeeds and
leaves Cognito untouched. -/
theorem admin_delete_user_orders_ok (cfg : Config) (st : Store) (aid : String)
    (h1 : py_strip aid = aid) (h2 : aid ≠ "") (h : cfg.orderDeleteFaults = []) :
    ∃ st2 n, admin_delete_user_orders cfg (mkAdminEvent aid aid) st = (st2, .ok n) ∧
      st2.cognitoUsers = st.cognitoUsers := by
  unfold admin_delete_user_orders
  rw [validate_mkAdminEvent aid aid h1 h2]
  rcases orders_profile_loop_ok cfg
    (query_profiles_by_owner cfg st (normalize_account_id aid)) st 0 h with
    ⟨st2, n, hres, hcog⟩
  simp only [hres]
  exact ⟨st2, n, rfl, hcog⟩

/-- A fault-free campaign delete succeeds and only touches the campaigns
table. -/
theorem delete_campaign_item_nofault (cfg : Config) (st : Store) (pid cid : String)
    (h : cfg.campaignDeleteFaults = []) :
    delete_campaign_item cfg st pid cid =
      .ok { st with campaigns := st.campaigns.filter fun c =>
        !(c.profileId == pid && c.campaignId == cid) } := by
  unfold delete_campaign_item
  rw [h]
  rfl

/-- The fault-free campaign loop succeeds and leaves Cognito
untouched. -/
theorem campaigns_delete_loop_ok2 (cfg : Config) (pid : String) (cs : List CampaignItem)
    (st : Store) (count : Nat) (h : cfg.campaignDeleteFaults = []) :
    ∃ st2 n, campaigns_delete_loop cfg pid cs st count = (st2, .ok n) ∧
      st2.cognitoUsers = st.cognitoUsers := by
  induction cs generalizing st count with
  | nil => exact ⟨st, count, rfl, rfl⟩
  | cons c rest ih =>
    unfold campaigns_delete_loop
    rw [delete_campaign_item_nofault cfg st pid c.campaignId h]
    rcases ih _ (count + 1) with ⟨st2, n, hres, hcog⟩
    exact ⟨st2, n, hres, hcog⟩

/-- The fault-free per-profile campaign loop succeeds and leaves Cognito
untouched. -/
theorem campaigns_profile_loop_ok (cfg : Config) (ps : List ProfileItem)
    (st : Store) (count : Nat) (h : cfg.campaignDeleteFaults = []) :
    ∃ st2 n, campaigns_profile_loop cfg ps st count = (st2, .ok n) ∧
      st2.cognitoUsers = st.cognitoUsers := by
  induction ps generalizing st count with
  | nil => exact ⟨st, count, rfl, rfl⟩
  | cons p rest ih =>
    unfold campaigns_profile_loop
    rcases campaigns_delete_loop_ok2 cfg p.profileId
      (query_campaigns_by_profile cfg st p.profileId) st count h with ⟨st2, n, hres, hcog⟩
    rw [hres]
    rcases ih st2 n with ⟨st3, n3, hres3, hcog3⟩
    exact ⟨st3, n3, hres3, hcog3.trans hcog⟩

/-- Fault-free `admin_delete_user_campaigns` on an admin event succeeds
and leaves Cognito untouched. -/
theorem admin_delete_user_campaigns_ok (cfg : Config) (st : Store) (aid : String)
    (h1 : py_strip aid = aid) (h2 : aid ≠ "") (h : cfg.campaignDeleteFaults = []) :
    ∃ st2 n, admin_delete_user_campaigns cfg (mkAdminEvent aid aid) st = (st2, .ok n) ∧
      st2.cognitoUsers = st.cognitoUsers := by
  unfold admin_delete_user_campaigns
  rw [validate_mkAdminEvent aid aid h1 h2]
  rcases campaigns_profile_loop_ok cfg
    (query_profiles_by_owner cfg st (normalize_account_id aid)) st 0 h with
    ⟨st2, n, hres, hcog⟩
  simp only [hres]
  exact ⟨st2, n, rfl, hcog⟩

/-- A fault-free share delete succeeds and only touches the shares
table. -/
theorem delete_share_item_nofault (cfg : Config) (st : Store) (pid target : String)
    (h : cfg.shareDeleteFaults = []) :
    delete_share_item cfg st pid target =
      .ok { st with shares := st.shares.filter fun s =>
        !(s.profileId == pid && s.targetAccountId == target) } := by
  unfold delete_share_item
  rw [h]
  rfl

/-- The fault-free share loop succeeds and leaves Cognito untouched. -/
theorem shares_delete_loop_ok (cfg : Config) (pid : String) (ss : List ShareItem)
    (st : Store) (count : Nat) (h : cfg.shareDeleteFaults = []) :
    ∃ st2 n, shares_delete_loop cfg pid ss st count = (st2, .ok n) ∧
      st2.cognitoUsers = st.cognitoUsers := by
  induction ss generalizing st count with
  | nil => exact ⟨st, count, rfl, rfl⟩
  | cons s rest ih =>
    unfold shares_delete_loop
    rw [delete_share_item_nofault cfg st pid s.targetAccountId h]
    rcases ih _ (count + 1) with ⟨st2, n, hres, hcog⟩
    exact ⟨st2, n, hres, hcog⟩

/-- The fault-free per-profile share loop succeeds and leaves Cognito
untouched. -/
theorem shares_profile_loop_ok (cfg : Config) (ps : List ProfileItem)
    (st : Store) (count : Nat) (h : cfg.shareDeleteFaults = []) :
    ∃ st2 n, shares_profile_loop cfg ps st count = (st2, .ok n) ∧
      st2.cognitoUsers = st.cognitoUsers := by
  induction ps generalizing st count with
  | nil => exact ⟨st, count, rfl, rfl⟩
  | cons p rest ih =>
    unfold shares_profile_loop
    rcases shares_delete_loop_ok cfg p.profileId
      (query_shares_by_profile cfg st p.profileId) st count h with ⟨st2, n, hres, hcog⟩
    rw [hres]
    rcases ih st2 n with ⟨st3, n3, hres3, hcog3⟩
    exact ⟨st3, n3, hres3, hcog3.trans hcog⟩

/-- Fault-free `admin_delete_user_shares` on an admin event succeeds and
leaves Cognito untouched. -/
theorem admin_delete_user_shares_ok (cfg : Config) (st : Store) (aid : String)
    (h1 : py_strip aid = aid) (h2 : aid ≠ "") (h : cfg.shareDeleteFaults = []) :
    ∃ st2 n, admin_delete_user_shares cfg (mkAdminEvent aid aid) st = (st2, .ok n) ∧
      st2.cognitoUsers = st.cognitoUsers := by
  unfold admin_delete_user_shares
  rw [validate_mkAdminEvent aid aid h1 h2]
  rcases shares_profile_loop_ok cfg
    (query_profiles_by_owner cfg st (normalize_account_id aid)) st 0 h with
    ⟨st2, n, hres, hcog⟩
  simp only [hres]
  exact ⟨st2, n, rfl, hcog⟩

/-- The profile delete loop leaves Cognito untouched. -/
theorem profiles_delete_loop_cognito (dbA : String) (ps : List ProfileItem)
    (st : Store) (count : Nat) :
    ((profiles_delete_loop dbA ps st count).1).cognitoUsers = st.cognitoUsers := by
  induction ps generalizing st count with
  | nil => rfl
  | cons p rest ih => exact ih _ (count + 1)

/-- `admin_delete_user_profiles` on an admin event succeeds and leaves
Cognito untouched. -/
theorem admin_delete_user_profiles_ok (cfg : Config) (st : Store) (aid : String)
    (h1 : py_strip aid = aid) (h2 : aid ≠ "") :
    ∃ st2 n, admin_delete_user_profiles cfg (mkAdminEvent aid aid) st = (st2, .ok n) ∧
      st2.cognitoUsers = st.cognitoUsers := by
  unfold admin_delete_user_profiles
  rw [validate_mkAdminEvent aid aid h1 h2]
  exact ⟨_, _, rfl, profiles_delete_loop_cognito _ _ st 0⟩

/-- The catalog scan loop leaves Cognito untouched. -/
theorem scan_catalogs_loop_cognito (cfg : Config) (owner : String) (fuel start : Nat)
    (st : Store) (count : Nat) :
    ((scan_catalogs_loop cfg owner fuel start st count).1).cognitoUsers =
      st.cognitoUsers := by
  induction fuel generalizing start st count with
  | zero => rfl
  | succ fuel ih =>
    simp only [scan_catalogs_loop]
    rw [soft_delete_foldl]
    by_cases hlt : start + cfg.pageSize < st.catalogs.length
    · rw [if_pos hlt]
      exact ih _ _ _
    · rw [if_neg hlt]

/-- `admin_delete_user_catalogs` on an admin event succeeds and leaves
Cognito untouched. -/
theorem admin_delete_user_catalogs_ok (cfg : Config) (st : Store) (aid : String)
    (h1 : py_strip aid = aid) (h2 : aid ≠ "") :
    ∃ st2 n, admin_delete_user_catalogs cfg (mkAdminEvent aid aid) st = (st2, .ok n) ∧
      st2.cognitoUsers = st.cognitoUsers := by
  unfold admin_delete_user_catalogs
  rw [validate_mkAdminEvent aid aid h1 h2]
  exact ⟨_, _, rfl, scan_catalogs_loop_cognito cfg _ _ 0 st 0⟩

/-- Fault-free `_delete_all_user_data` succeeds and leaves Cognito
untouched. -/
theorem delete_all_user_data_ok (cfg : Config) (aid : String) (st : Store)
    (h1 : py_strip aid = aid) (h2 : aid ≠ "")
    (hc : cfg.campaignDeleteFaults = []) (ho : cfg.orderDeleteFaults = [])
    (hs : cfg.shareDeleteFaults = []) :
    ∃ st2, delete_all_user_data cfg aid st = (st2, .ok ()) ∧
      st2.cognitoUsers = st.cognitoUsers := by
  unfold delete_all_user_data
  rw [mk_pseudo_event_eq]
  rcases admin_delete_user_orders_ok cfg st aid h1 h2 ho with ⟨s1, n1, hr1, hg1⟩
  simp only [hr1]
  rcases admin_delete_user_campaigns_ok cfg s1 aid h1 h2 hc with ⟨s2, n2, hr2, hg2⟩
  simp only [hr2]
  rcases admin_delete_user_shares_ok cfg s2 aid h1 h2 hs with ⟨s3, n3, hr3, hg3⟩
  simp only [hr3]
  rcases admin_delete_user_profiles_ok cfg s3 aid h1 h2 with ⟨s4, n4, hr4, hg4⟩
  simp only [hr4]
  rcases admin_delete_user_catalogs_ok cfg s4 aid h1 h2 with ⟨s5, n5, hr5, hg5⟩
  simp only [hr5]
  refine ⟨_, rfl, ?_⟩
  exact (hg5.trans (hg4.trans (hg3.trans (hg2.trans hg1))))

/-- The provider-side user deletion step succeeds when the user is
absent, when the provider reports UserNotFoundException, or when it is
not faulted. -/
theorem delete_user_from_cognito_self_ok (cfg : Config) (st : Store) (aid : String)
    (h : cfg.cognitoSelfDeleteFault = none ∨
      cfg.cognitoSelfDeleteFault = some "UserNotFoundException" ∨
      st.cognitoUsers.filter (fun u => u.sub == aid) = []) :
    ∃ st2, delete_user_from_cognito_self cfg st aid = (st2, .ok ()) := by
  unfold delete_user_from_cognito_self
  cases hu : (st.cognitoUsers.filter fun u => u.sub == aid).head? with
  | none => exact ⟨st, rfl⟩
  | some u =>
    rcases h with h | h | h
    · rw [h]
      exact ⟨_, rfl⟩
    · rw [h]
      exact ⟨st, by simp⟩
    · rw [h] at hu
      simp at hu
/-- With the pool configured and the document store not faulting,
`delete_my_account` returns true whenever the provider-side deletion is
not faulted, reports user-not-found, or finds no user at all. -/
theorem delete_my_account_ok (cfg : Config) (st : Store) (acct : String)
    (h1 : py_strip acct = acct) (h2 : acct ≠ "")
    (hpool : cfg.userPoolConfigured = true)
    (hc : cfg.campaignDeleteFaults = []) (ho : cfg.orderDeleteFaults = [])
    (hs : cfg.shareDeleteFaults = [])
    (hcog : cfg.cognitoSelfDeleteFault = none ∨
      cfg.cognitoSelfDeleteFault = some "UserNotFoundException" ∨
      st.cognitoUsers.filter (fun u => u.sub == acct) = []) :
    ∃ st2, delete_my_account cfg (mk_self_event acct) st = (st2, .ok true) := by
  have hex : extract_self_sub (mk_self_event acct) = .ok acct := rfl
  rcases delete_all_user_data_ok cfg acct st h1 h2 hc ho hs with ⟨st1, hr1, hg1⟩
  have hcog1 : cfg.cognitoSelfDeleteFault = none ∨
      cfg.cognitoSelfDeleteFault = some "UserNotFoundException" ∨
      st1.cognitoUsers.filter (fun u => u.sub == acct) = [] := by
    rcases hcog with h | h | h
    · exact Or.inl h
    · exact Or.inr (Or.inl h)
    · refine Or.inr (Or.inr ?_)
      rw [hg1, h]
  rcases delete_user_from_cognito_self_ok cfg st1 acct hcog1 with ⟨st2, hr2⟩
  refine ⟨st2, ?_⟩
  unfold delete_my_account
  rw [hex]
  simp [hpool, hr1, hr2]

/-- C8: self-service account deletion treats a missing identity-provider
user as already deleted: with the data cleanup not faulting, the call
returns true when the user lookup finds nobody, and also when the
provider-side delete reports user-not-found; consequently a second
invocation for the same caller succeeds as well. -/
theorem delete_my_account_idempotent (cfg : Config) (st : Store) (acct : String)
    (h1 : py_strip acct = acct) (h2 : acct ≠ "")
    (hpool : cfg.userPoolConfigured = true)
    (hc : cfg.campaignDeleteFaults = []) (ho : cfg.orderDeleteFaults = [])
    (hs : cfg.shareDeleteFaults = []) :
    (st.cognitoUsers.filter (fun u => u.sub == acct) = [] →
      (delete_my_account cfg (mk_self_event acct) st).2 = .ok true) ∧
    (cfg.cognitoSelfDeleteFault = some "UserNotFoundException" →
      (delete_my_account cfg (mk_self_event acct) st).2 = .ok true) ∧
    (cfg.cognitoSelfDeleteFault = none →
      (delete_my_account cfg (mk_self_event acct)
        (delete_my_account cfg (mk_self_event acct) st).1).2 = .ok true) := by
  refine ⟨fun h => ?_, fun h => ?_, fun h => ?_⟩
  · rcases delete_my_account_ok cfg st acct h1 h2 hpool hc ho hs
      (Or.inr (Or.inr h)) with ⟨st2, hr⟩
    rw [hr]
  · rcases delete_my_account_ok cfg st acct h1 h2 hpool hc ho hs
      (Or.inr (Or.inl h)) with ⟨st2, hr⟩
    rw [hr]
  · rcases delete_my_account_ok cfg st acct h1 h2 hpool hc ho hs
      (Or.inl h) with ⟨st2, hr⟩
    rcases delete_my_account_ok cfg st2 acct h1 h2 hpool hc ho hs
      (Or.inl h) with ⟨st3, hr3⟩
    rw [hr, hr3]

/-- Witness for C8: a caller with no Cognito user, a caller whose
provider delete reports user-not-found, and a repeated deletion. -/
theorem delete_my_account_idempotent_witness :
    (delete_my_account cfg0 (mk_self_event "u9") st_empty).2 = .ok true ∧
    (delete_my_account ⟨10, [], [], [], true, some "UserNotFoundException", none⟩
      (mk_self_event "u9") ⟨[], [], [], [], [], [], [⟨"user9", "u9"⟩]⟩).2 = .ok true ∧
    (delete_my_account cfg0 (mk_self_event "u9")
      (delete_my_account cfg0 (mk_self_event "u9") st_empty).1).2 = .ok true :=
  ⟨(delete_my_account_idempotent cfg0 st_empty "u9" (by rfl) (by decide) (by rfl)
      (by rfl) (by rfl) (by rfl)).1 (by rfl),
   (delete_my_account_idempotent ⟨10, [], [], [], true, some "UserNotFoundException", none⟩
      ⟨[], [], [], [], [], [], [⟨"user9", "u9"⟩]⟩ "u9" (by rfl) (by decide) (by rfl)
      (by rfl) (by rfl) (by rfl)).2.1 (by rfl),
   (delete_my_account_idempotent cfg0 st_empty "u9" (by rfl) (by decide) (by rfl)
      (by rfl) (by rfl) (by rfl)).2.2 (by rfl)⟩

end KernelWorx
